import Mathlib

set_option autoImplicit false

/-! Shallow embedding of pyFAI's pure-numpy histogram rebinning engine
(`pyFAI/engines/histogram_engine.py`): the 1D and 2D weighted-histogram
integration entry points, numpy's uniform-bin histogram semantics in exact
rational arithmetic, and the reduction stage with its empty-bin fill policy.

Floating-point values are modelled as `Option ℚ`: `some q` is a finite value,
`none` stands for a non-finite float (NaN or ±infinity).  Floating square root
is modelled by an abstract function `sq : ℚ → ℚ` applied to nonnegative
arguments; every theorem below holds for an arbitrary `sq`.  The preprocessing
stage (`pyFAI.engines.preproc`) is an external collaborator per the spec, so
the engines take its output — the list of per-pixel quadruples — as input. -/

namespace PyFAI

/-- Value domain for reduction-stage floats: `none` models NaN or ±infinity. -/
abbrev Val := Option ℚ

/-- Division of two finite floats: division by zero yields a non-finite value
(numpy emits inf or NaN under `errstate ignore`), never an exception. -/
def fdivQ (a b : ℚ) : Val := if b = 0 then none else some (a / b)

/-- Division of a possibly non-finite numerator by a finite denominator. -/
def vdivQ (a : Val) (b : ℚ) : Val :=
  match a with
  | none => none
  | some x => if b = 0 then none else some (x / b)

/-- Square root of a finite float, with `sq` the abstract floating square root
on nonnegative rationals; a negative argument yields NaN. -/
def fsqrtQ (sq : ℚ → ℚ) (a : ℚ) : Val := if a < 0 then none else some (sq a)

/-- Square root of a possibly non-finite value. -/
def fsqrtV (sq : ℚ → ℚ) (a : Val) : Val := a.bind (fsqrtQ sq)

/-- Per-pixel corrected quadruple produced by the preprocessing stage. -/
structure PixelSample where
  signal : ℚ
  variance : ℚ
  norm : ℚ
  count : ℚ
  deriving DecidableEq

/-- Modelled from the spec: `pyFAI.containers.ErrorModel` is not under `src/`;
the spec fixes the closed tag set {NO, VARIANCE, POISSON, AZIMUTHAL, HYBRID}
with `NO` the only falsy member for the engine's `elif error_model:` test. -/
inductive ErrorModel where
  | no
  | variance
  | poisson
  | azimuthal
  | hybrid
  deriving DecidableEq

/-- Truthiness of the error-model tag: `NO` is falsy, everything else truthy. -/
def ErrorModel.truthy : ErrorModel → Bool
  | .no => false
  | _ => true

/-- Modelled from the spec: `EPS32` from `pyFAI.utils` is not under `src/`; the
spec gives the amplification constant as `1 + 2^-32`. -/
def EPS32 : ℚ := 1 + 1 / 2 ^ 32

/-- Failure modes of an engine call: the shape assertion, the data-derived
range over an empty coordinate array (numpy `min` raises there), a zero bin
count, a reversed range (numpy `ValueError`), and the explicit
`NotImplementedError` for the azimuthal error model on the 1D path. -/
inductive EngineError where
  | shapeMismatch
  | emptyData
  | invalidBins
  | invalidRange
  | notImplementedAzimuthal
  deriving DecidableEq

/-- Effective histogram bounds, following numpy `_get_outer_edges`: a reversed
range raises, a degenerate range `lo = hi` is widened to `(lo - 1/2, hi + 1/2)`,
and proper bounds are used verbatim. -/
def outerEdges (lo hi : ℚ) : Except EngineError (ℚ × ℚ) :=
  if hi < lo then .error .invalidRange
  else if hi = lo then .ok (lo - 1/2, hi + 1/2)
  else .ok (lo, hi)

/-- Bin index of a coordinate for `n` uniform bins spanning `[lo, hi]`, in
exact arithmetic, following numpy: all bins are half-open except the last,
which also contains `hi`; coordinates outside `[lo, hi]` fall in no bin. -/
def binOf (lo hi : ℚ) (n : ℕ) (x : ℚ) : Option ℕ :=
  if n = 0 ∨ hi ≤ lo then none
  else if lo ≤ x ∧ x ≤ hi then
    some (min (⌊(x - lo) * (n : ℚ) / (hi - lo)⌋.toNat) (n - 1))
  else none

/-- Weighted count accumulated in bin `k` from (coordinate, weight) pairs. -/
def binSum (lo hi : ℚ) (n : ℕ) : List (ℚ × ℚ) → ℕ → ℚ
  | [], _ => 0
  | cw :: t, k => (if binOf lo hi n cw.1 = some k then cw.2 else 0) + binSum lo hi n t k

/-- Weighted histogram of `coords` with weights `ws` over `n` uniform bins
spanning `[lo, hi]`, as numpy `histogram` computes it in exact arithmetic. -/
def histogramW (coords ws : List ℚ) (n : ℕ) (lo hi : ℚ) : List ℚ :=
  (List.range n).map (binSum lo hi n (coords.zip ws))

/-- Bin edge `k` of the uniform subdivision; numpy returns the edge array
`linspace lo hi (n+1)`. -/
def edgeAt (lo hi : ℚ) (n : ℕ) (k : ℕ) : ℚ := lo + (k : ℚ) * (hi - lo) / (n : ℚ)

/-- Bin-edge sequence of length `n + 1`. -/
def binEdges (lo hi : ℚ) (n : ℕ) : List ℚ := (List.range (n + 1)).map (edgeAt lo hi n)

/-- Bin centers, `(position[1:] + position[:-1]) / 2` in the source: the
arithmetic mean of each pair of consecutive edges. -/
def binCenters (lo hi : ℚ) (n : ℕ) : List ℚ :=
  (List.range n).map (fun k => (edgeAt lo hi n k + edgeAt lo hi n (k + 1)) / 2)

/-- Minimum of a coordinate array, numpy `min`; the empty-list value 0 is never
queried by the engines. -/
def listMin : List ℚ → ℚ
  | [] => 0
  | c :: t => t.foldl min c

/-- Maximum of a coordinate array, numpy `max`. -/
def listMax : List ℚ → ℚ
  | [] => 0
  | c :: t => t.foldl max c

/-- Range resolution of the 1D engine: an explicit range is used verbatim,
otherwise `(radial.min(), radial.max() * EPS32)`; numpy `min` on an empty
array raises. -/
def resolveRange1d (radial : List ℚ) : Option (ℚ × ℚ) → Except EngineError (ℚ × ℚ)
  | some r => .ok r
  | none =>
    match radial with
    | [] => .error .emptyData
    | _ => .ok (listMin radial, listMax radial * EPS32)

/-- Empty-bin fill value: a supplied `dummy` overrides any explicit `empty`
argument (`if dummy is not None: empty = dummy`); with neither supplied, numpy
assignment of Python `None` into a float array stores NaN, i.e. `none`. -/
def emptyFill (dummy empty : Option ℚ) : Val :=
  match dummy with
  | some d => some d
  | none => empty

/-- Assignment `a[mask_empty] = fill`: entries whose bin count is zero are
overwritten with the fill value. -/
def maskFill (counts : List ℚ) (fill : Val) (vals : List Val) : List Val :=
  List.zipWith (fun c v => if c = 0 then fill else v) counts vals

/-- Result tuple of the 1D engine (`pyFAI.containers.Integrate1dtpl`); field
names follow the spec's `Result1D` listing since `containers.py` is not under
`src/`.  The engine's return statement passes `sem` for both the third slot
and the trailing `sem2` slot. -/
structure Integrate1dtpl where
  position : List ℚ
  intensity : List Val
  sem : Option (List Val)
  sum_signal : List ℚ
  sum_variance : Option (List ℚ)
  sum_normalization : List ℚ
  sum_count : List ℚ
  std : Option (List Val)
  sem2 : Option (List Val)
  sum_normalization_sq : Option (List ℚ)
  deriving DecidableEq

/-- Pure computation of the 1D engine after all failure checks have passed:
histograms over the effective bounds `[lo, hi]`, reduction, empty-bin
overwrite, and result assembly. -/
def mk1d (sq : ℚ → ℚ) (radial : List ℚ) (npt : ℕ) (prep : List PixelSample)
    (dummy empty : Option ℚ) (error_model : ErrorModel) (lo hi : ℚ) : Integrate1dtpl :=
  let histo_signal := histogramW radial (prep.map (·.signal)) npt lo hi
  let histo_variance := if error_model.truthy then
      some (histogramW radial (prep.map (·.variance)) npt lo hi) else none
  let histo_normalization2 := if error_model.truthy then
      some (histogramW radial (prep.map (fun p => p.norm ^ 2)) npt lo hi) else none
  let histo_normalization := histogramW radial (prep.map (·.norm)) npt lo hi
  let histo_count := histogramW radial (prep.map (·.count)) npt lo hi
  let fill := emptyFill dummy empty
  let intensity := maskFill histo_count fill (List.zipWith fdivQ histo_signal histo_normalization)
  let std := match histo_variance, histo_normalization2 with
    | some hv, some hn2 => some (maskFill histo_count fill
        (List.zipWith (fun v n2 => fsqrtV sq (fdivQ v n2)) hv hn2))
    | _, _ => none
  let sem := match histo_variance with
    | some hv => some (maskFill histo_count fill
        (List.zipWith (fun v n => vdivQ (fsqrtQ sq v) n) hv histo_normalization))
    | none => none
  { position := binCenters lo hi npt
    intensity := intensity
    sem := sem
    sum_signal := histo_signal
    sum_variance := histo_variance
    sum_normalization := histo_normalization
    sum_count := histo_count
    std := std
    sem2 := sem
    sum_normalization_sq := histo_normalization2 }

/-- The 1D rebinning engine, `histogram1d_engine`: the preprocessed per-pixel
quadruple array `prep` is taken as input (preprocessing is an external
collaborator) and `sq` abstracts floating square root.  Failure checks mirror
the source order: shape assertion, data-derived range on an empty array,
numpy's bin-count and range validation inside the first histogram call, then
the explicit rejection of the azimuthal error model. -/
def histogram1d_engine (sq : ℚ → ℚ) (radial : List ℚ) (npt : ℕ)
    (prep : List PixelSample) (dummy empty : Option ℚ)
    (error_model : ErrorModel) (radial_range : Option (ℚ × ℚ)) :
    Except EngineError Integrate1dtpl :=
  if prep.length ≠ radial.length then .error .shapeMismatch
  else
    match resolveRange1d radial radial_range with
    | .error e => .error e
    | .ok (rlo, rhi) =>
      if npt = 0 then .error .invalidBins
      else
        match outerEdges rlo rhi with
        | .error e => .error e
        | .ok (lo, hi) =>
          if error_model = .azimuthal then .error .notImplementedAzimuthal
          else .ok (mk1d sq radial npt prep dummy empty error_model lo hi)

/-- Result tuple of the 2D engine (`pyFAI.containers.Integrate2dtpl`), field
names from the spec's `Result2D` listing; matrices are azimuthal-major. -/
structure Integrate2dtpl where
  bins_rad : List ℚ
  bins_azim : List ℚ
  intensity : List (List Val)
  error : Option (List (List Val))
  sum_signal : List (List ℚ)
  sum_variance : Option (List (List ℚ))
  sum_normalization : List (List ℚ)
  sum_count : List (List ℚ)
  deriving DecidableEq

/-- Weighted count in 2D cell of radial bin `i` and azimuthal bin `j`, from
((radial, azimuthal), weight) triples. -/
def binSum2 (lor hir : ℚ) (nr : ℕ) (loa hia : ℚ) (na : ℕ) :
    List ((ℚ × ℚ) × ℚ) → ℕ → ℕ → ℚ
  | [], _, _ => 0
  | cw :: t, i, j =>
      (if binOf lor hir nr cw.1.1 = some i ∧ binOf loa hia na cw.1.2 = some j
       then cw.2 else 0) + binSum2 lor hir nr loa hia na t i j

/-- Azimuthal-major weighted 2D histogram: numpy `histogram2d` accumulates the
radial-major grid and the engine materializes its `.T` transposition. -/
def histogram2W (radial azim ws : List ℚ) (nr : ℕ) (lor hir : ℚ) (na : ℕ) (loa hia : ℚ) :
    List (List ℚ) :=
  (List.range na).map (fun j => (List.range nr).map (fun i =>
    binSum2 lor hir nr loa hia na ((radial.zip azim).zip ws) i j))

/-- Per-axis bound resolution of numpy `histogram2d`: an explicit range goes
through `_get_outer_edges` validation and widening; `None` derives the bounds
from the data, `(0, 1)` for an empty axis, degenerate bounds widened. -/
def resolveAxis (data : List ℚ) : Option (ℚ × ℚ) → Except EngineError (ℚ × ℚ)
  | some r => outerEdges r.1 r.2
  | none =>
    match data with
    | [] => .ok (0, 1)
    | _ => outerEdges (listMin data) (listMax data)

/-- Empty-cell overwrite over azimuthal-major matrices. -/
def maskFill2 (counts : List (List ℚ)) (fill : Val) (vals : List (List Val)) :
    List (List Val) :=
  List.zipWith (fun cr vr => maskFill cr fill vr) counts vals

/-- Elementwise combination of two matrices. -/
def zipWith2 {α β γ : Type} (f : α → β → γ) (a : List (List α)) (b : List (List β)) :
    List (List γ) :=
  List.zipWith (fun ra rb => List.zipWith f ra rb) a b

/-- Pure computation of the 2D engine after all failure checks have passed. -/
def mk2d (sq : ℚ → ℚ) (radial azimuthal : List ℚ) (nr na : ℕ) (prep : List PixelSample)
    (dummy empty : Option ℚ) (error_model : ErrorModel)
    (lor hir loa hia : ℚ) : Integrate2dtpl :=
  let histo_signal := histogram2W radial azimuthal (prep.map (·.signal)) nr lor hir na loa hia
  let histo_normalization := histogram2W radial azimuthal (prep.map (·.norm)) nr lor hir na loa hia
  let histo_count := histogram2W radial azimuthal (prep.map (·.count)) nr lor hir na loa hia
  let histo_variance := if error_model.truthy then
      some (histogram2W radial azimuthal (prep.map (·.variance)) nr lor hir na loa hia)
    else none
  let fill := emptyFill dummy empty
  let intensity := maskFill2 histo_count fill (zipWith2 fdivQ histo_signal histo_normalization)
  let error := match histo_variance with
    | some hv => some (maskFill2 histo_count fill
        (zipWith2 (fun v n => vdivQ (fsqrtQ sq v) n) hv histo_normalization))
    | none => none
  { bins_rad := binCenters lor hir nr
    bins_azim := binCenters loa hia na
    intensity := intensity
    error := error
    sum_signal := histo_signal
    sum_variance := histo_variance
    sum_normalization := histo_normalization
    sum_count := histo_count }

/-- The 2D rebinning engine, `histogram2d_engine`: both coordinate arrays must
match the pixel count; each axis resolves its bounds independently; `npt` is
clamped per axis to at least 1; any truthy error model — the azimuthal one
included — triggers the variance pass, with no rejection on this path. -/
def histogram2d_engine (sq : ℚ → ℚ) (radial azimuthal : List ℚ) (npt : ℕ × ℕ)
    (prep : List PixelSample) (dummy empty : Option ℚ)
    (error_model : ErrorModel) (radial_range azimuth_range : Option (ℚ × ℚ)) :
    Except EngineError Integrate2dtpl :=
  if prep.length ≠ radial.length then .error .shapeMismatch
  else if prep.length ≠ azimuthal.length then .error .shapeMismatch
  else
    match resolveAxis radial radial_range with
    | .error e => .error e
    | .ok (lor, hir) =>
      match resolveAxis azimuthal azimuth_range with
      | .error e => .error e
      | .ok (loa, hia) =>
        .ok (mk2d sq radial azimuthal (max 1 npt.1) (max 1 npt.2) prep dummy empty
          error_model lor hir loa hia)

/-- Sum of the weights of the pixels whose coordinate lies within `[lo, hi]`. -/
def inRangeSum (lo hi : ℚ) (coords ws : List ℚ) : ℚ :=
  (((coords.zip ws).filter (fun cw => decide (lo ≤ cw.1 ∧ cw.1 ≤ hi))).map
    (fun cw => cw.2)).sum

end PyFAI

namespace PyFAI

/-! Basic facts about the binning primitive. -/

theorem binOf_lt {lo hi : ℚ} {n : ℕ} {x : ℚ} {k : ℕ}
    (h : binOf lo hi n x = some k) : k < n := by
  unfold binOf at h
  split at h
  · exact Option.noConfusion h
  next hc =>
    split at h
    · have hn : n ≠ 0 := fun h0 => hc (Or.inl h0)
      have := (Option.some.injEq _ _).mp h
      omega
    · exact Option.noConfusion h

theorem binOf_isSome_iff {lo hi : ℚ} {n : ℕ} (hn : n ≠ 0) (hlt : lo < hi) (x : ℚ) :
    (binOf lo hi n x).isSome ↔ (lo ≤ x ∧ x ≤ hi) := by
  unfold binOf
  have hc : ¬(n = 0 ∨ hi ≤ lo) := by
    push_neg
    exact ⟨hn, hlt⟩
  simp only [hc, if_false]
  split
  next h => simpa using h
  next h => simpa using h

theorem binSum_eq_sum_filter (lo hi : ℚ) (n : ℕ) (l : List (ℚ × ℚ)) (k : ℕ) :
    binSum lo hi n l k =
      ((l.filter (fun cw => decide (binOf lo hi n cw.1 = some k))).map
        (fun cw => cw.2)).sum := by
  induction l with
  | nil => simp [binSum]
  | cons a t ih =>
    by_cases hb : binOf lo hi n a.1 = some k
    · simp [binSum, hb, List.filter_cons, ih]
    · simp [binSum, hb, List.filter_cons, ih]

theorem sum_ite_binOf (lo hi : ℚ) (n : ℕ) (c w : ℚ) :
    (∑ k ∈ Finset.range n, if binOf lo hi n c = some k then w else 0) =
      if (binOf lo hi n c).isSome then w else 0 := by
  cases hb : binOf lo hi n c with
  | none => simp
  | some j =>
    have hj : j < n := binOf_lt hb
    simp only [Option.some.injEq, Option.isSome_some, if_true]
    rw [Finset.sum_ite_eq]
    simp [Finset.mem_range.mpr hj]

theorem sum_range_binSum {lo hi : ℚ} {n : ℕ} (hn : n ≠ 0) (hlt : lo < hi)
    (l : List (ℚ × ℚ)) :
    (∑ k ∈ Finset.range n, binSum lo hi n l k) =
      ((l.filter (fun cw => decide (lo ≤ cw.1 ∧ cw.1 ≤ hi))).map
        (fun cw => cw.2)).sum := by
  induction l with
  | nil => simp [binSum]
  | cons a t ih =>
    have hstep : (∑ k ∈ Finset.range n,
        ((if binOf lo hi n a.1 = some k then a.2 else 0) + binSum lo hi n t k)) =
        (∑ k ∈ Finset.range n, if binOf lo hi n a.1 = some k then a.2 else 0) +
          (∑ k ∈ Finset.range n, binSum lo hi n t k) := Finset.sum_add_distrib
    simp only [binSum, hstep, ih, sum_ite_binOf, binOf_isSome_iff hn hlt]
    by_cases hin : lo ≤ a.1 ∧ a.1 ≤ hi
    · simp [List.filter_cons, hin]
    · simp [List.filter_cons, hin]

theorem binSum_nonneg {lo hi : ℚ} {n : ℕ} {l : List (ℚ × ℚ)}
    (hw : ∀ cw ∈ l, 0 ≤ cw.2) (k : ℕ) : 0 ≤ binSum lo hi n l k := by
  induction l with
  | nil => simp [binSum]
  | cons a t ih =>
    have ha : 0 ≤ a.2 := hw a (List.mem_cons_self a t)
    have ht : ∀ cw ∈ t, 0 ≤ cw.2 := fun cw hcw => hw cw (List.mem_cons_of_mem a hcw)
    have h1 : 0 ≤ (if binOf lo hi n a.1 = some k then a.2 else 0) := by
      split <;> simp [ha]
    simpa [binSum] using add_nonneg h1 (ih ht)

theorem le_binSum {lo hi : ℚ} {n : ℕ} {l : List (ℚ × ℚ)} {c w : ℚ} {k : ℕ}
    (hw : ∀ cw ∈ l, 0 ≤ cw.2) (hmem : (c, w) ∈ l)
    (hb : binOf lo hi n c = some k) : w ≤ binSum lo hi n l k := by
  induction l with
  | nil => exact absurd hmem (List.not_mem_nil _)
  | cons a t ih =>
    have ht : ∀ cw ∈ t, 0 ≤ cw.2 := fun cw hcw => hw cw (List.mem_cons_of_mem a hcw)
    rcases List.mem_cons.mp hmem with hac | htm
    · subst hac
      simp only [binSum, hb, if_true]
      have := @binSum_nonneg lo hi n t ht k
      linarith
    · have ha : 0 ≤ a.2 := hw a (List.mem_cons_self a t)
      have h1 : 0 ≤ (if binOf lo hi n a.1 = some k then a.2 else 0) := by
        split <;> simp [ha]
      have := ih ht htm
      simp only [binSum]
      linarith

/-! Facts about list minimum and maximum, numpy `min` and `max`. -/

theorem foldl_min_le_init (t : List ℚ) (a : ℚ) : t.foldl min a ≤ a := by
  induction t generalizing a with
  | nil => exact le_refl a
  | cons b t ih => exact le_trans (ih (min a b)) (min_le_left a b)

theorem foldl_min_le_mem {t : List ℚ} {x : ℚ} (hx : x ∈ t) (a : ℚ) :
    t.foldl min a ≤ x := by
  induction t generalizing a with
  | nil => exact absurd hx (List.not_mem_nil _)
  | cons b t ih =>
    rcases List.mem_cons.mp hx with hxb | hxt
    · subst hxb
      exact le_trans (foldl_min_le_init t (min a x)) (min_le_right a x)
    · exact ih hxt (min a b)

theorem init_le_foldl_max (t : List ℚ) (a : ℚ) : a ≤ t.foldl max a := by
  induction t generalizing a with
  | nil => exact le_refl a
  | cons b t ih => exact le_trans (le_max_left a b) (ih (max a b))

theorem mem_le_foldl_max {t : List ℚ} {x : ℚ} (hx : x ∈ t) (a : ℚ) :
    x ≤ t.foldl max a := by
  induction t generalizing a with
  | nil => exact absurd hx (List.not_mem_nil _)
  | cons b t ih =>
    rcases List.mem_cons.mp hx with hxb | hxt
    · subst hxb
      exact le_trans (le_max_right a x) (init_le_foldl_max t (max a x))
    · exact ih hxt (max a b)

theorem listMin_le {l : List ℚ} {x : ℚ} (hx : x ∈ l) : listMin l ≤ x := by
  cases l with
  | nil => exact absurd hx (List.not_mem_nil _)
  | cons c t =>
    rcases List.mem_cons.mp hx with hxc | hxt
    · subst hxc
      exact foldl_min_le_init t x
    · exact foldl_min_le_mem hxt c

theorem le_listMax {l : List ℚ} {x : ℚ} (hx : x ∈ l) : x ≤ listMax l := by
  cases l with
  | nil => exact absurd hx (List.not_mem_nil _)
  | cons c t =>
    rcases List.mem_cons.mp hx with hxc | hxt
    · subst hxc
      exact init_le_foldl_max t x
    · exact mem_le_foldl_max hxt c

theorem listMin_le_listMax {l : List ℚ} (hl : l ≠ []) : listMin l ≤ listMax l := by
  cases l with
  | nil => exact absurd rfl hl
  | cons c t =>
    exact le_trans (listMin_le (List.mem_cons_self c t))
      (le_listMax (List.mem_cons_self c t))

end PyFAI

namespace PyFAI

/-! Unfolding lemmas for the engine entry points. -/

theorem histogram1d_engine_ok_elim {sq : ℚ → ℚ} {radial : List ℚ} {npt : ℕ}
    {prep : List PixelSample} {dummy empty : Option ℚ} {em : ErrorModel}
    {rr : Option (ℚ × ℚ)} {r : Integrate1dtpl}
    (h : histogram1d_engine sq radial npt prep dummy empty em rr = .ok r) :
    prep.length = radial.length ∧ npt ≠ 0 ∧ em ≠ .azimuthal ∧
      ∃ rlo rhi lo hi, resolveRange1d radial rr = .ok (rlo, rhi) ∧
        outerEdges rlo rhi = .ok (lo, hi) ∧
        r = mk1d sq radial npt prep dummy empty em lo hi := by
  unfold histogram1d_engine at h
  split at h
  · exact Except.noConfusion h
  next h1 =>
    split at h
    next e heq => exact Except.noConfusion h
    next rlo rhi heq =>
      split at h
      · exact Except.noConfusion h
      next h2 =>
        split at h
        next e heq2 => exact Except.noConfusion h
        next lo hi heq2 =>
          split at h
          · exact Except.noConfusion h
          next h3 =>
            exact ⟨not_ne_iff.mp h1, h2, h3, rlo, rhi, lo, hi, heq, heq2,
              ((Except.ok.injEq _ _).mp h).symm⟩

theorem histogram1d_engine_eq_ok {sq : ℚ → ℚ} {radial : List ℚ} {npt : ℕ}
    {prep : List PixelSample} {dummy empty : Option ℚ} {em : ErrorModel}
    {rr : Option (ℚ × ℚ)} {rlo rhi lo hi : ℚ}
    (h1 : prep.length = radial.length) (h2 : npt ≠ 0) (h3 : em ≠ .azimuthal)
    (hrr : resolveRange1d radial rr = .ok (rlo, rhi))
    (hoe : outerEdges rlo rhi = .ok (lo, hi)) :
    histogram1d_engine sq radial npt prep dummy empty em rr =
      .ok (mk1d sq radial npt prep dummy empty em lo hi) := by
  unfold histogram1d_engine
  simp [h1, h2, h3, hrr, hoe]

theorem histogram2d_engine_ok_elim {sq : ℚ → ℚ} {radial azimuthal : List ℚ}
    {npt : ℕ × ℕ} {prep : List PixelSample} {dummy empty : Option ℚ}
    {em : ErrorModel} {rr ar : Option (ℚ × ℚ)} {r : Integrate2dtpl}
    (h : histogram2d_engine sq radial azimuthal npt prep dummy empty em rr ar = .ok r) :
    prep.length = radial.length ∧ prep.length = azimuthal.length ∧
      ∃ lor hir loa hia, resolveAxis radial rr = .ok (lor, hir) ∧
        resolveAxis azimuthal ar = .ok (loa, hia) ∧
        r = mk2d sq radial azimuthal (max 1 npt.1) (max 1 npt.2) prep dummy empty
          em lor hir loa hia := by
  unfold histogram2d_engine at h
  split at h
  · exact Except.noConfusion h
  next h1 =>
    split at h
    · exact Except.noConfusion h
    next h2 =>
      split at h
      next e heq => exact Except.noConfusion h
      next lor hir heq =>
        split at h
        next e heq2 => exact Except.noConfusion h
        next loa hia heq2 =>
          exact ⟨not_ne_iff.mp h1, not_ne_iff.mp h2, lor, hir, loa, hia, heq, heq2,
            ((Except.ok.injEq _ _).mp h).symm⟩

theorem histogram2d_engine_eq_ok {sq : ℚ → ℚ} {radial azimuthal : List ℚ}
    {npt : ℕ × ℕ} {prep : List PixelSample} {dummy empty : Option ℚ}
    {em : ErrorModel} {rr ar : Option (ℚ × ℚ)} {lor hir loa hia : ℚ}
    (h1 : prep.length = radial.length) (h2 : prep.length = azimuthal.length)
    (hrr : resolveAxis radial rr = .ok (lor, hir))
    (har : resolveAxis azimuthal ar = .ok (loa, hia)) :
    histogram2d_engine sq radial azimuthal npt prep dummy empty em rr ar =
      .ok (mk2d sq radial azimuthal (max 1 npt.1) (max 1 npt.2) prep dummy empty
        em lor hir loa hia) := by
  have h3 : radial.length = azimuthal.length := h1 ▸ h2
  unfold histogram2d_engine
  simp [h1, h2, h3, hrr, har]

/-! Projection lemmas for the assembled results. -/

theorem mk1d_position (sq : ℚ → ℚ) (radial : List ℚ) (npt : ℕ)
    (prep : List PixelSample) (dummy empty : Option ℚ) (em : ErrorModel) (lo hi : ℚ) :
    (mk1d sq radial npt prep dummy empty em lo hi).position = binCenters lo hi npt := rfl

theorem mk1d_sum_signal (sq : ℚ → ℚ) (radial : List ℚ) (npt : ℕ)
    (prep : List PixelSample) (dummy empty : Option ℚ) (em : ErrorModel) (lo hi : ℚ) :
    (mk1d sq radial npt prep dummy empty em lo hi).sum_signal =
      histogramW radial (prep.map (·.signal)) npt lo hi := rfl

theorem mk1d_sum_normalization (sq : ℚ → ℚ) (radial : List ℚ) (npt : ℕ)
    (prep : List PixelSample) (dummy empty : Option ℚ) (em : ErrorModel) (lo hi : ℚ) :
    (mk1d sq radial npt prep dummy empty em lo hi).sum_normalization =
      histogramW radial (prep.map (·.norm)) npt lo hi := rfl

theorem mk1d_sum_count (sq : ℚ → ℚ) (radial : List ℚ) (npt : ℕ)
    (prep : List PixelSample) (dummy empty : Option ℚ) (em : ErrorModel) (lo hi : ℚ) :
    (mk1d sq radial npt prep dummy empty em lo hi).sum_count =
      histogramW radial (prep.map (·.count)) npt lo hi := rfl

theorem mk1d_intensity (sq : ℚ → ℚ) (radial : List ℚ) (npt : ℕ)
    (prep : List PixelSample) (dummy empty : Option ℚ) (em : ErrorModel) (lo hi : ℚ) :
    (mk1d sq radial npt prep dummy empty em lo hi).intensity =
      maskFill (histogramW radial (prep.map (·.count)) npt lo hi)
        (emptyFill dummy empty)
        (List.zipWith fdivQ (histogramW radial (prep.map (·.signal)) npt lo hi)
          (histogramW radial (prep.map (·.norm)) npt lo hi)) := rfl

theorem mk1d_sem2_eq_sem (sq : ℚ → ℚ) (radial : List ℚ) (npt : ℕ)
    (prep : List PixelSample) (dummy empty : Option ℚ) (em : ErrorModel) (lo hi : ℚ) :
    (mk1d sq radial npt prep dummy empty em lo hi).sem2 =
      (mk1d sq radial npt prep dummy empty em lo hi).sem := rfl

theorem mk1d_sum_variance_truthy (em : ErrorModel) (htr : em.truthy = true)
    (sq : ℚ → ℚ) (radial : List ℚ) (npt : ℕ) (prep : List PixelSample)
    (dummy empty : Option ℚ) (lo hi : ℚ) :
    (mk1d sq radial npt prep dummy empty em lo hi).sum_variance =
      some (histogramW radial (prep.map (·.variance)) npt lo hi) := by
  simp [mk1d, htr]

theorem mk1d_sum_normalization_sq_truthy (em : ErrorModel) (htr : em.truthy = true)
    (sq : ℚ → ℚ) (radial : List ℚ) (npt : ℕ) (prep : List PixelSample)
    (dummy empty : Option ℚ) (lo hi : ℚ) :
    (mk1d sq radial npt prep dummy empty em lo hi).sum_normalization_sq =
      some (histogramW radial (prep.map (fun p => p.norm ^ 2)) npt lo hi) := by
  simp [mk1d, htr]

theorem mk1d_std_truthy (em : ErrorModel) (htr : em.truthy = true)
    (sq : ℚ → ℚ) (radial : List ℚ) (npt : ℕ) (prep : List PixelSample)
    (dummy empty : Option ℚ) (lo hi : ℚ) :
    (mk1d sq radial npt prep dummy empty em lo hi).std =
      some (maskFill (histogramW radial (prep.map (·.count)) npt lo hi)
        (emptyFill dummy empty)
        (List.zipWith (fun v n2 => fsqrtV sq (fdivQ v n2))
          (histogramW radial (prep.map (·.variance)) npt lo hi)
          (histogramW radial (prep.map (fun p => p.norm ^ 2)) npt lo hi))) := by
  simp [mk1d, htr]

theorem mk1d_sem_truthy (em : ErrorModel) (htr : em.truthy = true)
    (sq : ℚ → ℚ) (radial : List ℚ) (npt : ℕ) (prep : List PixelSample)
    (dummy empty : Option ℚ) (lo hi : ℚ) :
    (mk1d sq radial npt prep dummy empty em lo hi).sem =
      some (maskFill (histogramW radial (prep.map (·.count)) npt lo hi)
        (emptyFill dummy empty)
        (List.zipWith (fun v n => vdivQ (fsqrtQ sq v) n)
          (histogramW radial (prep.map (·.variance)) npt lo hi)
          (histogramW radial (prep.map (·.norm)) npt lo hi))) := by
  simp [mk1d, htr]

theorem mk1d_no_error_model (em : ErrorModel) (htr : em.truthy = false)
    (sq : ℚ → ℚ) (radial : List ℚ) (npt : ℕ) (prep : List PixelSample)
    (dummy empty : Option ℚ) (lo hi : ℚ) :
    (mk1d sq radial npt prep dummy empty em lo hi).std = none ∧
    (mk1d sq radial npt prep dummy empty em lo hi).sem = none ∧
    (mk1d sq radial npt prep dummy empty em lo hi).sum_variance = none ∧
    (mk1d sq radial npt prep dummy empty em lo hi).sum_normalization_sq = none := by
  refine ⟨?_, ?_, ?_, ?_⟩ <;> simp [mk1d, htr]

end PyFAI

namespace PyFAI

/-! Element-access and length utilities. -/

theorem getD_map_range {α : Type} (f : ℕ → α) {n k : ℕ} (hk : k < n) (d : α) :
    ((List.range n).map f).getD k d = f k := by
  rw [List.getD_eq_getElem?_getD]
  simp [List.getElem?_map, List.getElem?_range hk]

theorem sum_map_range (f : ℕ → ℚ) (n : ℕ) :
    ((List.range n).map f).sum = ∑ k ∈ Finset.range n, f k := by
  induction n with
  | zero => simp
  | succ m ih =>
    rw [List.range_succ]
    simp [ih, Finset.sum_range_succ]

theorem zipWith_getD {α β γ : Type} (f : α → β → γ) {a : List α} {b : List β} {k : ℕ}
    (hka : k < a.length) (hkb : k < b.length) (da : α) (db : β) (d : γ) :
    (List.zipWith f a b).getD k d = f (a.getD k da) (b.getD k db) := by
  rw [List.getD_eq_getElem?_getD, List.getElem?_zipWith,
    List.getD_eq_getElem?_getD, List.getD_eq_getElem?_getD,
    List.getElem?_eq_getElem hka, List.getElem?_eq_getElem hkb]
  simp

theorem histogramW_length (coords ws : List ℚ) (n : ℕ) (lo hi : ℚ) :
    (histogramW coords ws n lo hi).length = n := by
  simp [histogramW]

theorem histogramW_getD (coords ws : List ℚ) {n k : ℕ} (hk : k < n) (lo hi : ℚ) :
    (histogramW coords ws n lo hi).getD k 0 = binSum lo hi n (coords.zip ws) k :=
  getD_map_range _ hk 0

theorem maskFill_getD {counts : List ℚ} {vals : List Val} (fill : Val) {k : ℕ}
    (hkc : k < counts.length) (hkv : k < vals.length) (d : Val) :
    (maskFill counts fill vals).getD k d =
      if counts.getD k 0 = 0 then fill else vals.getD k d := by
  unfold maskFill
  rw [zipWith_getD _ hkc hkv 0 d d]

theorem maskFill_length (counts : List ℚ) (fill : Val) (vals : List Val) :
    (maskFill counts fill vals).length = min counts.length vals.length := by
  simp [maskFill]

/-! Projection lemmas for the assembled 2D result. -/

theorem mk2d_sum_signal (sq : ℚ → ℚ) (radial azimuthal : List ℚ) (nr na : ℕ)
    (prep : List PixelSample) (dummy empty : Option ℚ) (em : ErrorModel)
    (lor hir loa hia : ℚ) :
    (mk2d sq radial azimuthal nr na prep dummy empty em lor hir loa hia).sum_signal =
      histogram2W radial azimuthal (prep.map (·.signal)) nr lor hir na loa hia := rfl

theorem mk2d_sum_normalization (sq : ℚ → ℚ) (radial azimuthal : List ℚ) (nr na : ℕ)
    (prep : List PixelSample) (dummy empty : Option ℚ) (em : ErrorModel)
    (lor hir loa hia : ℚ) :
    (mk2d sq radial azimuthal nr na prep dummy empty em lor hir loa hia).sum_normalization =
      histogram2W radial azimuthal (prep.map (·.norm)) nr lor hir na loa hia := rfl

theorem mk2d_sum_count (sq : ℚ → ℚ) (radial azimuthal : List ℚ) (nr na : ℕ)
    (prep : List PixelSample) (dummy empty : Option ℚ) (em : ErrorModel)
    (lor hir loa hia : ℚ) :
    (mk2d sq radial azimuthal nr na prep dummy empty em lor hir loa hia).sum_count =
      histogram2W radial azimuthal (prep.map (·.count)) nr lor hir na loa hia := rfl

theorem mk2d_sum_variance_truthy (em : ErrorModel) (htr : em.truthy = true)
    (sq : ℚ → ℚ) (radial azimuthal : List ℚ) (nr na : ℕ) (prep : List PixelSample)
    (dummy empty : Option ℚ) (lor hir loa hia : ℚ) :
    (mk2d sq radial azimuthal nr na prep dummy empty em lor hir loa hia).sum_variance =
      some (histogram2W radial azimuthal (prep.map (·.variance)) nr lor hir na loa hia) := by
  simp [mk2d, htr]

theorem mk2d_error_truthy (em : ErrorModel) (htr : em.truthy = true)
    (sq : ℚ → ℚ) (radial azimuthal : List ℚ) (nr na : ℕ) (prep : List PixelSample)
    (dummy empty : Option ℚ) (lor hir loa hia : ℚ) :
    (mk2d sq radial azimuthal nr na prep dummy empty em lor hir loa hia).error =
      some (maskFill2 (histogram2W radial azimuthal (prep.map (·.count)) nr lor hir na loa hia)
        (emptyFill dummy empty)
        (zipWith2 (fun v n => vdivQ (fsqrtQ sq v) n)
          (histogram2W radial azimuthal (prep.map (·.variance)) nr lor hir na loa hia)
          (histogram2W radial azimuthal (prep.map (·.norm)) nr lor hir na loa hia))) := by
  simp [mk2d, htr]

theorem mk2d_error_falsy (em : ErrorModel) (htr : em.truthy = false)
    (sq : ℚ → ℚ) (radial azimuthal : List ℚ) (nr na : ℕ) (prep : List PixelSample)
    (dummy empty : Option ℚ) (lor hir loa hia : ℚ) :
    (mk2d sq radial azimuthal nr na prep dummy empty em lor hir loa hia).error = none ∧
    (mk2d sq radial azimuthal nr na prep dummy empty em lor hir loa hia).sum_variance = none := by
  refine ⟨?_, ?_⟩ <;> simp [mk2d, htr]

end PyFAI

namespace PyFAI

/-- Claim C2: calling `histogram1d_engine` with the azimuthal error model never
returns a result, and whenever the call survives the shape assertion and
numpy's bin-count and range validation it fails with the explicit
`NotImplementedError` rather than silently degrading to the NO model. -/
theorem claim_C2_azimuthal_rejected_1d (sq : ℚ → ℚ) (radial : List ℚ) (npt : ℕ)
    (prep : List PixelSample) (dummy empty : Option ℚ) (rr : Option (ℚ × ℚ)) :
    (∀ r, histogram1d_engine sq radial npt prep dummy empty .azimuthal rr ≠ .ok r) ∧
    (∀ rlo rhi lo hi : ℚ, prep.length = radial.length → npt ≠ 0 →
      resolveRange1d radial rr = .ok (rlo, rhi) →
      outerEdges rlo rhi = .ok (lo, hi) →
      histogram1d_engine sq radial npt prep dummy empty .azimuthal rr =
        .error .notImplementedAzimuthal) := by
  constructor
  · intro r h
    obtain ⟨-, -, h3, -⟩ := histogram1d_engine_ok_elim h
    exact h3 rfl
  · intro rlo rhi lo hi h1 h2 hrr hoe
    unfold histogram1d_engine
    simp [h1, h2, hrr, hoe]

/-- Witness for claim C2 at a concrete input: one pixel, one bin, explicit
range, azimuthal error model. -/
theorem claim_C2_azimuthal_rejected_1d_witness :
    histogram1d_engine (fun q => q) [0] 1 [⟨1, 1, 1, 1⟩] none none .azimuthal
      (some (0, 1)) = .error .notImplementedAzimuthal :=
  (claim_C2_azimuthal_rejected_1d (fun q => q) [0] 1 [⟨1, 1, 1, 1⟩] none none
    (some (0, 1))).2 0 1 0 1 rfl (by decide)
    (rfl : resolveRange1d [0] (some (0, 1)) = .ok (0, 1))
    (show outerEdges 0 1 = .ok (0, 1) by norm_num [outerEdges])

/-- Claim C5: a 1D call with the NO error model returns `None` for the `std`
and `sem` fields (error absent, not zero) and performs no variance pass: the
returned `sum_variance` and `sum_normalization_sq` are `None` as well. -/
theorem claim_C5_no_error_model {sq : ℚ → ℚ} {radial : List ℚ} {npt : ℕ}
    {prep : List PixelSample} {dummy empty : Option ℚ} {rr : Option (ℚ × ℚ)}
    {r : Integrate1dtpl}
    (h : histogram1d_engine sq radial npt prep dummy empty .no rr = .ok r) :
    r.std = none ∧ r.sem = none ∧ r.sum_variance = none ∧
      r.sum_normalization_sq = none := by
  obtain ⟨-, -, -, rlo, rhi, lo, hi, -, -, hr⟩ := histogram1d_engine_ok_elim h
  subst hr
  exact mk1d_no_error_model .no rfl sq radial npt prep dummy empty lo hi

/-- Witness for claim C5 at a concrete input. -/
theorem claim_C5_no_error_model_witness :
    (mk1d (fun q => q) [0] 1 [⟨1, 1, 1, 1⟩] none none .no 0 1).std = none ∧
    (mk1d (fun q => q) [0] 1 [⟨1, 1, 1, 1⟩] none none .no 0 1).sem = none ∧
    (mk1d (fun q => q) [0] 1 [⟨1, 1, 1, 1⟩] none none .no 0 1).sum_variance = none ∧
    (mk1d (fun q => q) [0] 1 [⟨1, 1, 1, 1⟩] none none .no 0 1).sum_normalization_sq =
      none :=
  claim_C5_no_error_model
    (histogram1d_engine_eq_ok rfl (by decide) (by decide)
      (rfl : resolveRange1d [0] (some (0, 1)) = .ok (0, 1))
      (show outerEdges 0 1 = .ok (0, 1) by norm_num [outerEdges]))

/-- Claim C9: whenever the flattened coordinate-array length differs from the
number of per-pixel quadruples, each engine fails immediately with the
shape-mismatch error and returns no result; the 2D engine requires both the
radial and the azimuthal array lengths to equal the pixel count. -/
theorem claim_C9_shape_mismatch (sq : ℚ → ℚ) (radial azimuthal : List ℚ)
    (npt : ℕ) (npt2 : ℕ × ℕ) (prep : List PixelSample) (dummy empty : Option ℚ)
    (em : ErrorModel) (rr ar : Option (ℚ × ℚ)) :
    (prep.length ≠ radial.length →
      histogram1d_engine sq radial npt prep dummy empty em rr =
        .error .shapeMismatch) ∧
    (prep.length ≠ radial.length ∨ prep.length ≠ azimuthal.length →
      histogram2d_engine sq radial azimuthal npt2 prep dummy empty em rr ar =
        .error .shapeMismatch) := by
  constructor
  · intro h
    unfold histogram1d_engine
    simp [h]
  · intro h
    unfold histogram2d_engine
    rcases h with h | h
    · simp [h]
    · by_cases h1 : prep.length = radial.length
      · rw [if_neg (not_ne_iff.mpr h1), if_pos h]
      · simp [h1]

/-- Witness for claim C9: a two-pixel quadruple array against one radial
coordinate (1D) and against mismatched azimuthal coordinates (2D). -/
theorem claim_C9_shape_mismatch_witness :
    histogram1d_engine (fun q => q) [0] 1 [⟨1, 1, 1, 1⟩, ⟨2, 2, 1, 1⟩] none none
      .no (some (0, 1)) = .error .shapeMismatch ∧
    histogram2d_engine (fun q => q) [0, 1] [0] (1, 1) [⟨1, 1, 1, 1⟩, ⟨2, 2, 1, 1⟩]
      none none .no (some (0, 1)) (some (0, 1)) = .error .shapeMismatch :=
  ⟨(claim_C9_shape_mismatch (fun q => q) [0] [0] 1 (1, 1) [⟨1, 1, 1, 1⟩, ⟨2, 2, 1, 1⟩]
      none none .no (some (0, 1)) (some (0, 1))).1 (by norm_num),
   (claim_C9_shape_mismatch (fun q => q) [0, 1] [0] 1 (1, 1) [⟨1, 1, 1, 1⟩, ⟨2, 2, 1, 1⟩]
      none none .no (some (0, 1)) (some (0, 1))).2 (Or.inr (by norm_num))⟩

/-- Claim C10: in every result of `histogram1d_engine` the publicly returned
error field (`sem`, third slot of the tuple) and the trailing diagnostic
`sem2` field hold the same value: both `None` when no error model is active,
and otherwise the identical array. -/
theorem claim_C10_sem2_mirrors_sem {sq : ℚ → ℚ} {radial : List ℚ} {npt : ℕ}
    {prep : List PixelSample} {dummy empty : Option ℚ} {em : ErrorModel}
    {rr : Option (ℚ × ℚ)} {r : Integrate1dtpl}
    (h : histogram1d_engine sq radial npt prep dummy empty em rr = .ok r) :
    r.sem2 = r.sem ∧ (em = .no → r.sem = none ∧ r.sem2 = none) := by
  obtain ⟨-, -, -, rlo, rhi, lo, hi, -, -, hr⟩ := histogram1d_engine_ok_elim h
  subst hr
  refine ⟨mk1d_sem2_eq_sem sq radial npt prep dummy empty em lo hi, ?_⟩
  rintro rfl
  have hno := mk1d_no_error_model .no rfl sq radial npt prep dummy empty lo hi
  exact ⟨hno.2.1, (mk1d_sem2_eq_sem sq radial npt prep dummy empty .no lo hi).trans
    hno.2.1⟩

/-- Witness for claim C10 at a concrete input with an active error model. -/
theorem claim_C10_sem2_mirrors_sem_witness :
    (mk1d (fun q => q) [0] 1 [⟨1, 1, 1, 1⟩] none none .poisson 0 1).sem2 =
      (mk1d (fun q => q) [0] 1 [⟨1, 1, 1, 1⟩] none none .poisson 0 1).sem ∧
    (ErrorModel.poisson = ErrorModel.no →
      (mk1d (fun q => q) [0] 1 [⟨1, 1, 1, 1⟩] none none .poisson 0 1).sem = none ∧
      (mk1d (fun q => q) [0] 1 [⟨1, 1, 1, 1⟩] none none .poisson 0 1).sem2 = none) :=
  claim_C10_sem2_mirrors_sem
    (histogram1d_engine_eq_ok rfl (by decide) (by decide)
      (rfl : resolveRange1d [0] (some (0, 1)) = .ok (0, 1))
      (show outerEdges 0 1 = .ok (0, 1) by norm_num [outerEdges]))

end PyFAI

namespace PyFAI

/-! Helpers about range resolution and histograms over pixel fields. -/

theorem outerEdges_ok_lt {rlo rhi lo hi : ℚ}
    (h : outerEdges rlo rhi = .ok (lo, hi)) : lo < hi := by
  unfold outerEdges at h
  split at h
  · exact Except.noConfusion h
  next h1 =>
    split at h
    next h2 =>
      obtain ⟨h3, h4⟩ := Prod.mk.injEq _ _ _ _ ▸ (Except.ok.injEq _ _).mp h
      subst h3
      subst h4
      linarith
    next h2 =>
      obtain ⟨h3, h4⟩ := Prod.mk.injEq _ _ _ _ ▸ (Except.ok.injEq _ _).mp h
      subst h3
      subst h4
      exact lt_of_le_of_ne (not_lt.mp h1) (Ne.symm h2)

theorem outerEdges_of_lt {rlo rhi : ℚ} (h : rlo < rhi) :
    outerEdges rlo rhi = .ok (rlo, rhi) := by
  unfold outerEdges
  rw [if_neg (not_lt.mpr h.le), if_neg h.ne']

theorem resolveRange1d_none {radial : List ℚ} (hne : radial ≠ []) :
    resolveRange1d radial none = .ok (listMin radial, listMax radial * EPS32) := by
  cases radial with
  | nil => exact absurd rfl hne
  | cons c t => rfl

theorem binSum_zip_map (lo hi : ℚ) (n : ℕ) (radial : List ℚ)
    (prep : List PixelSample) (f : PixelSample → ℚ) (k : ℕ) :
    binSum lo hi n (radial.zip (prep.map f)) k =
      (((radial.zip prep).filter
        (fun cp => decide (binOf lo hi n cp.1 = some k))).map
        (fun cp => f cp.2)).sum := by
  rw [List.zip_map_right, binSum_eq_sum_filter, List.filter_map, List.map_map]
  congr 1

/-- Claim C6: for an accepted 1D call with the NO error model, read in exact
arithmetic, the bin totals of `sum_signal`, `sum_normalization` and
`sum_count` equal the totals of the corresponding per-pixel field over exactly
the pixels whose radial coordinate lies within the effective resolved range;
out-of-range pixels contribute to no bin. -/
theorem claim_C6_conservation {sq : ℚ → ℚ} {radial : List ℚ} {npt : ℕ}
    {prep : List PixelSample} {dummy empty : Option ℚ} {rr : Option (ℚ × ℚ)}
    {r : Integrate1dtpl} {rlo rhi lo hi : ℚ}
    (hrr : resolveRange1d radial rr = .ok (rlo, rhi))
    (hoe : outerEdges rlo rhi = .ok (lo, hi))
    (h : histogram1d_engine sq radial npt prep dummy empty .no rr = .ok r) :
    r.sum_signal.sum = inRangeSum lo hi radial (prep.map (·.signal)) ∧
    r.sum_normalization.sum = inRangeSum lo hi radial (prep.map (·.norm)) ∧
    r.sum_count.sum = inRangeSum lo hi radial (prep.map (·.count)) := by
  obtain ⟨-, hn, -, rlo', rhi', lo', hi', hrr', hoe', hrm⟩ :=
    histogram1d_engine_ok_elim h
  rw [hrr] at hrr'
  obtain ⟨e1, e2⟩ := Prod.mk.injEq _ _ _ _ ▸ (Except.ok.injEq _ _).mp hrr'
  subst e1
  subst e2
  rw [hoe] at hoe'
  obtain ⟨e3, e4⟩ := Prod.mk.injEq _ _ _ _ ▸ (Except.ok.injEq _ _).mp hoe'
  subst e3
  subst e4
  subst hrm
  have hlt : lo < hi := outerEdges_ok_lt hoe
  refine ⟨?_, ?_, ?_⟩
  · rw [mk1d_sum_signal]
    unfold histogramW
    rw [sum_map_range, sum_range_binSum hn hlt]
    rfl
  · rw [mk1d_sum_normalization]
    unfold histogramW
    rw [sum_map_range, sum_range_binSum hn hlt]
    rfl
  · rw [mk1d_sum_count]
    unfold histogramW
    rw [sum_map_range, sum_range_binSum hn hlt]
    rfl

/-- Witness for claim C6: three pixels with one out-of-range coordinate; the
bin totals match the in-range totals. -/
theorem claim_C6_conservation_witness :
    (mk1d (fun q => q) [1/4, 3/4, 2] 2 [⟨10, 0, 1, 1⟩, ⟨20, 0, 1, 1⟩, ⟨40, 0, 1, 1⟩]
      none none .no 0 1).sum_signal.sum =
      inRangeSum 0 1 [1/4, 3/4, 2]
        (([⟨10, 0, 1, 1⟩, ⟨20, 0, 1, 1⟩, ⟨40, 0, 1, 1⟩] : List PixelSample).map
          (·.signal)) ∧
    (mk1d (fun q => q) [1/4, 3/4, 2] 2 [⟨10, 0, 1, 1⟩, ⟨20, 0, 1, 1⟩, ⟨40, 0, 1, 1⟩]
      none none .no 0 1).sum_normalization.sum =
      inRangeSum 0 1 [1/4, 3/4, 2]
        (([⟨10, 0, 1, 1⟩, ⟨20, 0, 1, 1⟩, ⟨40, 0, 1, 1⟩] : List PixelSample).map
          (·.norm)) ∧
    (mk1d (fun q => q) [1/4, 3/4, 2] 2 [⟨10, 0, 1, 1⟩, ⟨20, 0, 1, 1⟩, ⟨40, 0, 1, 1⟩]
      none none .no 0 1).sum_count.sum =
      inRangeSum 0 1 [1/4, 3/4, 2]
        (([⟨10, 0, 1, 1⟩, ⟨20, 0, 1, 1⟩, ⟨40, 0, 1, 1⟩] : List PixelSample).map
          (·.count)) :=
  claim_C6_conservation
    (rfl : resolveRange1d [1/4, 3/4, 2] (some (0, 1)) = .ok (0, 1))
    (show outerEdges 0 1 = .ok (0, 1) by norm_num [outerEdges])
    (histogram1d_engine_eq_ok rfl (by decide) (by decide)
      (rfl : resolveRange1d [1/4, 3/4, 2] (some (0, 1)) = .ok (0, 1))
      (show outerEdges 0 1 = .ok (0, 1) by norm_num [outerEdges]))

/-- Claim C7: the 2D engine does not reject any truthy error model — the
azimuthal one included: it accumulates a variance histogram over the grid and
returns an error matrix `sqrt(sum_variance)/sum_normalization` with empty
cells overwritten by the fill value; only the falsy NO model skips the
variance pass and yields `error = None`. -/
theorem claim_C7_2d_error_model_gating (sq : ℚ → ℚ) (radial azimuthal : List ℚ)
    (npt : ℕ × ℕ) (prep : List PixelSample) (dummy empty : Option ℚ)
    (em : ErrorModel) (rr ar : Option (ℚ × ℚ)) (lor hir loa hia : ℚ)
    (h1 : prep.length = radial.length) (h2 : prep.length = azimuthal.length)
    (hrr : resolveAxis radial rr = .ok (lor, hir))
    (har : resolveAxis azimuthal ar = .ok (loa, hia)) :
    histogram2d_engine sq radial azimuthal npt prep dummy empty em rr ar =
      .ok (mk2d sq radial azimuthal (max 1 npt.1) (max 1 npt.2) prep dummy empty
        em lor hir loa hia) ∧
    (em.truthy = true →
      (mk2d sq radial azimuthal (max 1 npt.1) (max 1 npt.2) prep dummy empty
          em lor hir loa hia).sum_variance =
        some (histogram2W radial azimuthal (prep.map (·.variance)) (max 1 npt.1)
          lor hir (max 1 npt.2) loa hia) ∧
      (mk2d sq radial azimuthal (max 1 npt.1) (max 1 npt.2) prep dummy empty
          em lor hir loa hia).error =
        some (maskFill2
          (histogram2W radial azimuthal (prep.map (·.count)) (max 1 npt.1)
            lor hir (max 1 npt.2) loa hia)
          (emptyFill dummy empty)
          (zipWith2 (fun v n => vdivQ (fsqrtQ sq v) n)
            (histogram2W radial azimuthal (prep.map (·.variance)) (max 1 npt.1)
              lor hir (max 1 npt.2) loa hia)
            (histogram2W radial azimuthal (prep.map (·.norm)) (max 1 npt.1)
              lor hir (max 1 npt.2) loa hia)))) ∧
    (em.truthy = false →
      (mk2d sq radial azimuthal (max 1 npt.1) (max 1 npt.2) prep dummy empty
          em lor hir loa hia).error = none ∧
      (mk2d sq radial azimuthal (max 1 npt.1) (max 1 npt.2) prep dummy empty
          em lor hir loa hia).sum_variance = none) := by
  refine ⟨histogram2d_engine_eq_ok h1 h2 hrr har, ?_, ?_⟩
  · intro htr
    exact ⟨mk2d_sum_variance_truthy em htr sq radial azimuthal _ _ prep dummy empty
        lor hir loa hia,
      mk2d_error_truthy em htr sq radial azimuthal _ _ prep dummy empty
        lor hir loa hia⟩
  · intro htr
    exact mk2d_error_falsy em htr sq radial azimuthal _ _ prep dummy empty
      lor hir loa hia

/-- Witness for claim C7 at a concrete input with the azimuthal error model:
the 2D call is accepted and the variance pass runs. -/
theorem claim_C7_2d_error_model_gating_witness :
    histogram2d_engine (fun q => q) [1/10, 9/10] [1/10, 9/10] (2, 2)
      [⟨10, 4, 1, 1⟩, ⟨20, 9, 1, 1⟩] none (some 0) .azimuthal
      (some (0, 1)) (some (0, 1)) =
      .ok (mk2d (fun q => q) [1/10, 9/10] [1/10, 9/10] (max 1 (2, 2).1)
        (max 1 (2, 2).2) [⟨10, 4, 1, 1⟩, ⟨20, 9, 1, 1⟩] none (some 0) .azimuthal
        0 1 0 1) ∧
    (ErrorModel.azimuthal.truthy = true →
      (mk2d (fun q => q) [1/10, 9/10] [1/10, 9/10] (max 1 (2, 2).1)
          (max 1 (2, 2).2) [⟨10, 4, 1, 1⟩, ⟨20, 9, 1, 1⟩] none (some 0) .azimuthal
          0 1 0 1).sum_variance =
        some (histogram2W [1/10, 9/10] [1/10, 9/10]
          (([⟨10, 4, 1, 1⟩, ⟨20, 9, 1, 1⟩] : List PixelSample).map (·.variance))
          (max 1 (2, 2).1) 0 1 (max 1 (2, 2).2) 0 1) ∧
      (mk2d (fun q => q) [1/10, 9/10] [1/10, 9/10] (max 1 (2, 2).1)
          (max 1 (2, 2).2) [⟨10, 4, 1, 1⟩, ⟨20, 9, 1, 1⟩] none (some 0) .azimuthal
          0 1 0 1).error =
        some (maskFill2
          (histogram2W [1/10, 9/10] [1/10, 9/10]
            (([⟨10, 4, 1, 1⟩, ⟨20, 9, 1, 1⟩] : List PixelSample).map (·.count))
            (max 1 (2, 2).1) 0 1 (max 1 (2, 2).2) 0 1)
          (emptyFill none (some 0))
          (zipWith2 (fun v n => vdivQ (fsqrtQ (fun q => q) v) n)
            (histogram2W [1/10, 9/10] [1/10, 9/10]
              (([⟨10, 4, 1, 1⟩, ⟨20, 9, 1, 1⟩] : List PixelSample).map (·.variance))
              (max 1 (2, 2).1) 0 1 (max 1 (2, 2).2) 0 1)
            (histogram2W [1/10, 9/10] [1/10, 9/10]
              (([⟨10, 4, 1, 1⟩, ⟨20, 9, 1, 1⟩] : List PixelSample).map (·.norm))
              (max 1 (2, 2).1) 0 1 (max 1 (2, 2).2) 0 1)))) ∧
    (ErrorModel.azimuthal.truthy = false →
      (mk2d (fun q => q) [1/10, 9/10] [1/10, 9/10] (max 1 (2, 2).1)
          (max 1 (2, 2).2) [⟨10, 4, 1, 1⟩, ⟨20, 9, 1, 1⟩] none (some 0) .azimuthal
          0 1 0 1).error = none ∧
      (mk2d (fun q => q) [1/10, 9/10] [1/10, 9/10] (max 1 (2, 2).1)
          (max 1 (2, 2).2) [⟨10, 4, 1, 1⟩, ⟨20, 9, 1, 1⟩] none (some 0) .azimuthal
          0 1 0 1).sum_variance = none) :=
  claim_C7_2d_error_model_gating (fun q => q) [1/10, 9/10] [1/10, 9/10] (2, 2)
    [⟨10, 4, 1, 1⟩, ⟨20, 9, 1, 1⟩] none (some 0) .azimuthal
    (some (0, 1)) (some (0, 1)) 0 1 0 1 rfl rfl
    (show resolveAxis [1/10, 9/10] (some (0, 1)) = .ok (0, 1) by
      norm_num [resolveAxis, outerEdges])
    (show resolveAxis [1/10, 9/10] (some (0, 1)) = .ok (0, 1) by
      norm_num [resolveAxis, outerEdges])

end PyFAI

namespace PyFAI

/-! Per-bin reduction values of the assembled 1D result. -/

theorem mk1d_intensity_getD (sq : ℚ → ℚ) (radial : List ℚ) (npt : ℕ)
    (prep : List PixelSample) (dummy empty : Option ℚ) (em : ErrorModel)
    (lo hi : ℚ) {k : ℕ} (hk : k < npt) :
    (mk1d sq radial npt prep dummy empty em lo hi).intensity.getD k none =
      if (histogramW radial (prep.map (·.count)) npt lo hi).getD k 0 = 0
      then emptyFill dummy empty
      else fdivQ ((histogramW radial (prep.map (·.signal)) npt lo hi).getD k 0)
        ((histogramW radial (prep.map (·.norm)) npt lo hi).getD k 0) := by
  have h1 : k < (histogramW radial (prep.map (·.count)) npt lo hi).length := by
    rw [histogramW_length]
    exact hk
  have h2 : k < (List.zipWith fdivQ (histogramW radial (prep.map (·.signal)) npt lo hi)
      (histogramW radial (prep.map (·.norm)) npt lo hi)).length := by
    simpa [List.length_zipWith, histogramW_length] using hk
  have h3 : k < (histogramW radial (prep.map (·.signal)) npt lo hi).length := by
    rw [histogramW_length]
    exact hk
  have h4 : k < (histogramW radial (prep.map (·.norm)) npt lo hi).length := by
    rw [histogramW_length]
    exact hk
  rw [mk1d_intensity, maskFill_getD (emptyFill dummy empty) h1 h2 none,
    zipWith_getD fdivQ h3 h4 0 0 none]

theorem mk1d_std_getD (em : ErrorModel) (htr : em.truthy = true) (sq : ℚ → ℚ)
    (radial : List ℚ) (npt : ℕ) (prep : List PixelSample)
    (dummy empty : Option ℚ) (lo hi : ℚ) {k : ℕ} (hk : k < npt) :
    ∃ lstd, (mk1d sq radial npt prep dummy empty em lo hi).std = some lstd ∧
      lstd.getD k none =
        (if (histogramW radial (prep.map (·.count)) npt lo hi).getD k 0 = 0
         then emptyFill dummy empty
         else fsqrtV sq (fdivQ
           ((histogramW radial (prep.map (·.variance)) npt lo hi).getD k 0)
           ((histogramW radial (prep.map (fun p => p.norm ^ 2)) npt lo hi).getD k 0))) := by
  have h1 : k < (histogramW radial (prep.map (·.count)) npt lo hi).length := by
    rw [histogramW_length]
    exact hk
  have h2 : k < (List.zipWith (fun v n2 => fsqrtV sq (fdivQ v n2))
      (histogramW radial (prep.map (·.variance)) npt lo hi)
      (histogramW radial (prep.map (fun p => p.norm ^ 2)) npt lo hi)).length := by
    simpa [List.length_zipWith, histogramW_length] using hk
  have h3 : k < (histogramW radial (prep.map (·.variance)) npt lo hi).length := by
    rw [histogramW_length]
    exact hk
  have h4 : k < (histogramW radial (prep.map (fun p => p.norm ^ 2)) npt lo hi).length := by
    rw [histogramW_length]
    exact hk
  refine ⟨_, mk1d_std_truthy em htr sq radial npt prep dummy empty lo hi, ?_⟩
  rw [maskFill_getD (emptyFill dummy empty) h1 h2 none,
    zipWith_getD (fun v n2 => fsqrtV sq (fdivQ v n2)) h3 h4 0 0 none]

theorem mk1d_sem_getD (em : ErrorModel) (htr : em.truthy = true) (sq : ℚ → ℚ)
    (radial : List ℚ) (npt : ℕ) (prep : List PixelSample)
    (dummy empty : Option ℚ) (lo hi : ℚ) {k : ℕ} (hk : k < npt) :
    ∃ lsem, (mk1d sq radial npt prep dummy empty em lo hi).sem = some lsem ∧
      lsem.getD k none =
        (if (histogramW radial (prep.map (·.count)) npt lo hi).getD k 0 = 0
         then emptyFill dummy empty
         else vdivQ (fsqrtQ sq
             ((histogramW radial (prep.map (·.variance)) npt lo hi).getD k 0))
           ((histogramW radial (prep.map (·.norm)) npt lo hi).getD k 0)) := by
  have h1 : k < (histogramW radial (prep.map (·.count)) npt lo hi).length := by
    rw [histogramW_length]
    exact hk
  have h2 : k < (List.zipWith (fun v n => vdivQ (fsqrtQ sq v) n)
      (histogramW radial (prep.map (·.variance)) npt lo hi)
      (histogramW radial (prep.map (·.norm)) npt lo hi)).length := by
    simpa [List.length_zipWith, histogramW_length] using hk
  have h3 : k < (histogramW radial (prep.map (·.variance)) npt lo hi).length := by
    rw [histogramW_length]
    exact hk
  have h4 : k < (histogramW radial (prep.map (·.norm)) npt lo hi).length := by
    rw [histogramW_length]
    exact hk
  refine ⟨_, mk1d_sem_truthy em htr sq radial npt prep dummy empty lo hi, ?_⟩
  rw [maskFill_getD (emptyFill dummy empty) h1 h2 none,
    zipWith_getD (fun v n => vdivQ (fsqrtQ sq v) n) h3 h4 0 0 none]

end PyFAI

namespace PyFAI

/-- Counterexample to claim C1 as stated: with neither `dummy` nor `empty`
supplied, the empty second bin receives NaN (`none`, from assigning Python
`None` into the float array) instead of the claimed default fill value 0. -/
theorem claim_C1_counterexample :
    histogram1d_engine (fun q => q) [1/4] 2 [⟨10, 0, 1, 1⟩] none none .no
      (some (0, 1)) =
      .ok { position := [1/4, 3/4], intensity := [some 10, none], sem := none,
            sum_signal := [10, 0], sum_variance := none,
            sum_normalization := [1, 0], sum_count := [1, 0],
            std := none, sem2 := none, sum_normalization_sq := none } ∧
    (none : Val) ≠ some 0 := by
  refine ⟨?_, by simp⟩
  norm_num [histogram1d_engine, mk1d, resolveRange1d, outerEdges, histogramW,
    binSum, binOf, binCenters, edgeAt, maskFill, emptyFill, fdivQ,
    ErrorModel.truthy, List.range_succ]
  exact fun h => nomatch h

end PyFAI

namespace PyFAI

/-- Claim C3: for a 1D call with an active non-azimuthal error model,
`sum_normalization_sq` is the weighted histogram of the per-pixel
normalization squared (the squaring happens per pixel before binning), and on
every non-empty bin — i.e. before the empty-bin overwrite can apply — the
returned `std` is `sqrt(sum_variance / sum_normalization_sq)` and `sem` is
`sqrt(sum_variance) / sum_normalization`. -/
theorem claim_C3_variance_propagation {sq : ℚ → ℚ} {radial : List ℚ} {npt : ℕ}
    {prep : List PixelSample} {dummy empty : Option ℚ} {em : ErrorModel}
    {rr : Option (ℚ × ℚ)} {r : Integrate1dtpl} {rlo rhi lo hi : ℚ}
    (hem : em = .variance ∨ em = .poisson ∨ em = .hybrid)
    (hrr : resolveRange1d radial rr = .ok (rlo, rhi))
    (hoe : outerEdges rlo rhi = .ok (lo, hi))
    (h : histogram1d_engine sq radial npt prep dummy empty em rr = .ok r) :
    (∃ l2, r.sum_normalization_sq = some l2 ∧ ∀ k, k < npt →
      l2.getD k 0 =
        (((radial.zip prep).filter
          (fun cp => decide (binOf lo hi npt cp.1 = some k))).map
          (fun cp => cp.2.norm ^ 2)).sum) ∧
    (∀ k, k < npt → r.sum_count.getD k 0 ≠ 0 →
      ∃ lv l2 lstd lsem,
        r.sum_variance = some lv ∧ r.sum_normalization_sq = some l2 ∧
        r.std = some lstd ∧ r.sem = some lsem ∧
        lstd.getD k none = fsqrtV sq (fdivQ (lv.getD k 0) (l2.getD k 0)) ∧
        lsem.getD k none =
          vdivQ (fsqrtQ sq (lv.getD k 0)) (r.sum_normalization.getD k 0)) := by
  have htr : em.truthy = true := by
    rcases hem with rfl | rfl | rfl <;> rfl
  obtain ⟨-, -, -, rlo', rhi', lo', hi', hrr', hoe', hrm⟩ :=
    histogram1d_engine_ok_elim h
  rw [hrr] at hrr'
  obtain ⟨e1, e2⟩ := Prod.mk.injEq _ _ _ _ ▸ (Except.ok.injEq _ _).mp hrr'
  subst e1
  subst e2
  rw [hoe] at hoe'
  obtain ⟨e3, e4⟩ := Prod.mk.injEq _ _ _ _ ▸ (Except.ok.injEq _ _).mp hoe'
  subst e3
  subst e4
  subst hrm
  constructor
  · refine ⟨_, mk1d_sum_normalization_sq_truthy em htr sq radial npt prep dummy
      empty lo hi, ?_⟩
    intro k hk
    rw [histogramW_getD _ _ hk, binSum_zip_map]
  · intro k hk hne
    rw [mk1d_sum_count] at hne
    obtain ⟨lstd, hstd, hstdval⟩ :=
      mk1d_std_getD em htr sq radial npt prep dummy empty lo hi hk
    obtain ⟨lsem, hsem, hsemval⟩ :=
      mk1d_sem_getD em htr sq radial npt prep dummy empty lo hi hk
    refine ⟨_, _, lstd, lsem,
      mk1d_sum_variance_truthy em htr sq radial npt prep dummy empty lo hi,
      mk1d_sum_normalization_sq_truthy em htr sq radial npt prep dummy empty lo hi,
      hstd, hsem, ?_, ?_⟩
    · rw [hstdval, if_neg hne]
    · rw [hsemval, if_neg hne, mk1d_sum_normalization]

/-- Witness for claim C3 at a concrete input with the Poisson error model and
two occupied bins. -/
theorem claim_C3_variance_propagation_witness :
    (∃ l2, (mk1d (fun q => q) [1/4, 3/4] 2 [⟨10, 4, 2, 1⟩, ⟨20, 9, 3, 1⟩] none none
        .poisson 0 1).sum_normalization_sq = some l2 ∧ ∀ k, k < 2 →
      l2.getD k 0 =
        ((([((1:ℚ)/4, (⟨10, 4, 2, 1⟩ : PixelSample)),
            ((3:ℚ)/4, (⟨20, 9, 3, 1⟩ : PixelSample))]).filter
          (fun cp => decide (binOf 0 1 2 cp.1 = some k))).map
          (fun cp => cp.2.norm ^ 2)).sum) ∧
    (∀ k, k < 2 →
      (mk1d (fun q => q) [1/4, 3/4] 2 [⟨10, 4, 2, 1⟩, ⟨20, 9, 3, 1⟩] none none
        .poisson 0 1).sum_count.getD k 0 ≠ 0 →
      ∃ lv l2 lstd lsem,
        (mk1d (fun q => q) [1/4, 3/4] 2 [⟨10, 4, 2, 1⟩, ⟨20, 9, 3, 1⟩] none none
          .poisson 0 1).sum_variance = some lv ∧
        (mk1d (fun q => q) [1/4, 3/4] 2 [⟨10, 4, 2, 1⟩, ⟨20, 9, 3, 1⟩] none none
          .poisson 0 1).sum_normalization_sq = some l2 ∧
        (mk1d (fun q => q) [1/4, 3/4] 2 [⟨10, 4, 2, 1⟩, ⟨20, 9, 3, 1⟩] none none
          .poisson 0 1).std = some lstd ∧
        (mk1d (fun q => q) [1/4, 3/4] 2 [⟨10, 4, 2, 1⟩, ⟨20, 9, 3, 1⟩] none none
          .poisson 0 1).sem = some lsem ∧
        lstd.getD k none =
          fsqrtV (fun q => q) (fdivQ (lv.getD k 0) (l2.getD k 0)) ∧
        lsem.getD k none =
          vdivQ (fsqrtQ (fun q => q) (lv.getD k 0))
            ((mk1d (fun q => q) [1/4, 3/4] 2 [⟨10, 4, 2, 1⟩, ⟨20, 9, 3, 1⟩] none none
              .poisson 0 1).sum_normalization.getD k 0)) :=
  claim_C3_variance_propagation (Or.inr (Or.inl rfl))
    (rfl : resolveRange1d [1/4, 3/4] (some (0, 1)) = .ok (0, 1))
    (show outerEdges 0 1 = .ok (0, 1) by norm_num [outerEdges])
    (histogram1d_engine_eq_ok rfl (by decide) (by decide)
      (rfl : resolveRange1d [1/4, 3/4] (some (0, 1)) = .ok (0, 1))
      (show outerEdges 0 1 = .ok (0, 1) by norm_num [outerEdges]))

end PyFAI

namespace PyFAI

theorem binCenters_getD (lo hi : ℚ) (n : ℕ) {k : ℕ} (hk : k < n) :
    (binCenters lo hi n).getD k 0 = (edgeAt lo hi n k + edgeAt lo hi n (k + 1)) / 2 :=
  getD_map_range _ hk 0

theorem binEdges_getD (lo hi : ℚ) (n : ℕ) {k : ℕ} (hk : k < n + 1) :
    (binEdges lo hi n).getD k 0 = edgeAt lo hi n k :=
  getD_map_range _ hk 0

/-- Counterexample to claim C8 as stated: a degenerate explicit range
`(0, 0)` is silently widened by the binning primitive to `(-1/2, 1/2)`, so the
returned centers are spaced `1/2`, not the claimed `(hi - lo)/N = 0`. -/
theorem claim_C8_counterexample :
    histogram1d_engine (fun q => q) [0] 2 [⟨10, 0, 1, 1⟩] none none .no
      (some (0, 0)) =
      .ok (mk1d (fun q => q) [0] 2 [⟨10, 0, 1, 1⟩] none none .no (-(1/2)) (1/2)) ∧
    (mk1d (fun q => q) [0] 2 [⟨10, 0, 1, 1⟩] none none .no
      (-(1/2)) (1/2)).position = [-(1/4), 1/4] ∧
    ((1:ℚ)/4) - (-(1/4)) ≠ ((0:ℚ) - 0) / 2 := by
  refine ⟨histogram1d_engine_eq_ok rfl (by decide) (by decide)
      (rfl : resolveRange1d [0] (some (0, 0)) = .ok (0, 0))
      (show outerEdges 0 0 = .ok (-(1/2), 1/2) by norm_num [outerEdges]),
    ?_, by norm_num⟩
  rw [mk1d_position]
  norm_num [binCenters, edgeAt, List.range_succ]

/-- Claim C8 as amended: for every accepted 1D call whose resolved range
`(lo, hi)` is proper (`lo < hi`; a degenerate range is widened by numpy before
binning, breaking the claimed spacing), exactly `npt` bin centers are
returned, strictly increasing, evenly spaced by `(hi - lo)/npt`, and each is
the arithmetic mean of two consecutive entries of the `(npt+1)`-long bin-edge
sequence. -/
theorem claim_C8_amended {sq : ℚ → ℚ} {radial : List ℚ} {npt : ℕ}
    {prep : List PixelSample} {dummy empty : Option ℚ} {em : ErrorModel}
    {rr : Option (ℚ × ℚ)} {r : Integrate1dtpl} {rlo rhi : ℚ}
    (hrr : resolveRange1d radial rr = .ok (rlo, rhi)) (hlt : rlo < rhi)
    (h : histogram1d_engine sq radial npt prep dummy empty em rr = .ok r) :
    r.position.length = npt ∧
    (binEdges rlo rhi npt).length = npt + 1 ∧
    (∀ k, k < npt →
      r.position.getD k 0 =
        ((binEdges rlo rhi npt).getD k 0 + (binEdges rlo rhi npt).getD (k + 1) 0) / 2) ∧
    (∀ k, k + 1 < npt →
      r.position.getD (k + 1) 0 - r.position.getD k 0 = (rhi - rlo) / npt ∧
      r.position.getD k 0 < r.position.getD (k + 1) 0) := by
  obtain ⟨-, hn, -, rlo', rhi', lo, hi, hrr', hoe', hrm⟩ :=
    histogram1d_engine_ok_elim h
  rw [hrr] at hrr'
  obtain ⟨e1, e2⟩ := Prod.mk.injEq _ _ _ _ ▸ (Except.ok.injEq _ _).mp hrr'
  subst e1
  subst e2
  rw [outerEdges_of_lt hlt] at hoe'
  obtain ⟨e3, e4⟩ := Prod.mk.injEq _ _ _ _ ▸ (Except.ok.injEq _ _).mp hoe'
  subst e3
  subst e4
  subst hrm
  have hn0 : ((npt : ℚ)) ≠ 0 := Nat.cast_ne_zero.mpr hn
  refine ⟨?_, ?_, ?_, ?_⟩
  · rw [mk1d_position]
    simp [binCenters]
  · simp [binEdges]
  · intro k hk
    rw [mk1d_position, binCenters_getD _ _ _ hk,
      binEdges_getD _ _ _ (by omega), binEdges_getD _ _ _ (by omega)]
  · intro k hk
    have hk1 : k < npt := Nat.lt_of_succ_lt hk
    have hdiff : (mk1d sq radial npt prep dummy empty em rlo rhi).position.getD
        (k + 1) 0 - (mk1d sq radial npt prep dummy empty em rlo rhi).position.getD
        k 0 = (rhi - rlo) / npt := by
      rw [mk1d_position, binCenters_getD _ _ _ hk, binCenters_getD _ _ _ hk1]
      unfold edgeAt
      push_cast
      field_simp
      ring
    refine ⟨hdiff, ?_⟩
    have hp : 0 < (rhi - rlo) / (npt : ℚ) :=
      div_pos (sub_pos.mpr hlt) (by positivity)
    linarith

/-- Witness for the amended claim C8 at a concrete input: two bins over the
explicit range `(0, 1)`. -/
theorem claim_C8_amended_witness :
    (mk1d (fun q => q) [0] 2 [⟨10, 0, 1, 1⟩] none none .no 0 1).position.length = 2 ∧
    (binEdges 0 1 2).length = 2 + 1 ∧
    (∀ k, k < 2 →
      (mk1d (fun q => q) [0] 2 [⟨10, 0, 1, 1⟩] none none .no 0 1).position.getD k 0 =
        ((binEdges 0 1 2).getD k 0 + (binEdges 0 1 2).getD (k + 1) 0) / 2) ∧
    (∀ k, k + 1 < 2 →
      (mk1d (fun q => q) [0] 2 [⟨10, 0, 1, 1⟩] none none .no 0 1).position.getD
          (k + 1) 0 -
        (mk1d (fun q => q) [0] 2 [⟨10, 0, 1, 1⟩] none none .no 0 1).position.getD
          k 0 = ((1:ℚ) - 0) / 2 ∧
      (mk1d (fun q => q) [0] 2 [⟨10, 0, 1, 1⟩] none none .no 0 1).position.getD k 0 <
        (mk1d (fun q => q) [0] 2 [⟨10, 0, 1, 1⟩] none none .no 0 1).position.getD
          (k + 1) 0) :=
  claim_C8_amended (rfl : resolveRange1d [0] (some (0, 1)) = .ok (0, 1))
    (by norm_num)
    (histogram1d_engine_eq_ok rfl (by decide) (by decide)
      (rfl : resolveRange1d [0] (some (0, 1)) = .ok (0, 1))
      (show outerEdges 0 1 = .ok (0, 1) by norm_num [outerEdges]))

end PyFAI

namespace PyFAI

theorem binOf_max_last {n : ℕ} {m M : ℚ} (hn : n ≠ 0) (hmM : m ≤ M) (hM : 0 < M)
    (hgap : ((n : ℚ) - 1) * M / 2 ^ 32 ≤ M - m) :
    binOf m (M * EPS32) n M = some (n - 1) := by
  have hMe : M < M * EPS32 := by
    have he : M * EPS32 = M + M / 2 ^ 32 := by
      unfold EPS32
      ring
    have hpos : 0 < M / 2 ^ 32 := by positivity
    rw [he]
    linarith
  have hlt : m < M * EPS32 := lt_of_le_of_lt hmM hMe
  have hcond : ¬(n = 0 ∨ M * EPS32 ≤ m) := by
    push_neg
    exact ⟨hn, hlt⟩
  unfold binOf
  rw [if_neg hcond, if_pos ⟨hmM, hMe.le⟩]
  congr 1
  have hD : 0 < M * EPS32 - m := sub_pos.mpr hlt
  have hq : ((n : ℚ) - 1) ≤ (M - m) * (n : ℚ) / (M * EPS32 - m) := by
    rw [le_div_iff₀ hD]
    have hexp : ((n : ℚ) - 1) * (M * EPS32 - m) =
        ((n : ℚ) - 1) * (M - m) + ((n : ℚ) - 1) * M / 2 ^ 32 := by
      unfold EPS32
      ring
    have h1 : ((n : ℚ) - 1) * (M - m) + (M - m) = (M - m) * (n : ℚ) := by ring
    rw [hexp]
    linarith
  have h1n : 1 ≤ n := Nat.one_le_iff_ne_zero.mpr hn
  have hfl : ((n - 1 : ℕ) : ℤ) ≤ ⌊(M - m) * (n : ℚ) / (M * EPS32 - m)⌋ := by
    rw [Int.le_floor]
    push_cast [Nat.cast_sub h1n]
    linarith [hq]
  have hnn : 0 ≤ ⌊(M - m) * (n : ℚ) / (M * EPS32 - m)⌋ :=
    le_trans (Int.natCast_nonneg (n - 1)) hfl
  have hge : (n - 1 : ℕ) ≤ (⌊(M - m) * (n : ℚ) / (M * EPS32 - m)⌋).toNat :=
    (Int.le_toNat hnn).mpr hfl
  omega

/-- Counterexample to claim C4 as stated: with all radial coordinates
negative, multiplying the maximum by `EPS32 > 1` shrinks the upper bound below
the maximum, so the maximum-coordinate pixel (count 1) falls outside the
derived range and the last bin stays empty. -/
theorem claim_C4_counterexample :
    histogram1d_engine (fun q => q) [-2, -1] 2 [⟨10, 0, 1, 1⟩, ⟨20, 0, 1, 1⟩]
      none none .no none =
      .ok (mk1d (fun q => q) [-2, -1] 2 [⟨10, 0, 1, 1⟩, ⟨20, 0, 1, 1⟩] none none
        .no (-2) (-1 * EPS32)) ∧
    listMax [-2, -1] = -1 ∧
    (⟨20, 0, 1, 1⟩ : PixelSample).count = 1 ∧
    (mk1d (fun q => q) [-2, -1] 2 [⟨10, 0, 1, 1⟩, ⟨20, 0, 1, 1⟩] none none .no
      (-2) (-1 * EPS32)).sum_count.getD 1 0 = 0 := by
  refine ⟨histogram1d_engine_eq_ok rfl (by decide) (by decide)
      (show resolveRange1d [-2, -1] none = .ok (-2, -1 * EPS32) by
        norm_num [resolveRange1d, listMin, listMax, List.foldl, min_def, max_def])
      (show outerEdges (-2) (-1 * EPS32) = .ok (-2, -1 * EPS32) by
        norm_num [outerEdges, EPS32]),
    by norm_num [listMax, List.foldl, max_def], rfl, ?_⟩
  rw [mk1d_sum_count]
  norm_num [histogramW, binSum, binOf, EPS32, List.range_succ]
  exact fun h => Option.noConfusion h

/-- Claim C4 as amended: with `radial_range = None`, the resolved range is
`(min(radial), max(radial) * EPS32)` exactly as claimed; the consequence that
every maximum-coordinate pixel lands in the last bin holds under the extra
conditions the counterexample forces: the maximum must be positive (a negative
maximum shrinks under the EPS32 amplification and is dropped) and the spread
must satisfy `(npt - 1) * max / 2^32 ≤ max - min` (with a huge bin count the
maximum lands strictly inside an earlier bin).  Then the last bin's
`sum_count` is at least 1 whenever some pixel with count 1 carries the maximum
coordinate and no pixel carries a negative count. -/
theorem claim_C4_amended {sq : ℚ → ℚ} {radial : List ℚ} {npt : ℕ}
    {prep : List PixelSample} {dummy empty : Option ℚ} {em : ErrorModel}
    {r : Integrate1dtpl}
    (hprep : ∀ p ∈ prep, 0 ≤ p.count)
    (hM : 0 < listMax radial)
    (hgap : ((npt : ℚ) - 1) * listMax radial / 2 ^ 32 ≤
      listMax radial - listMin radial)
    (hmax : ∃ cp ∈ radial.zip prep, cp.1 = listMax radial ∧ cp.2.count = 1)
    (h : histogram1d_engine sq radial npt prep dummy empty em none = .ok r) :
    resolveRange1d radial none =
      .ok (listMin radial, listMax radial * EPS32) ∧
    1 ≤ r.sum_count.getD (npt - 1) 0 := by
  obtain ⟨hlen, hn, -, rlo, rhi, lo, hi, hrr, hoe, hrm⟩ :=
    histogram1d_engine_ok_elim h
  have hne : radial ≠ [] := by
    intro hnil
    rw [hnil] at hrr
    exact Except.noConfusion hrr
  have hres := resolveRange1d_none hne
  rw [hres] at hrr
  obtain ⟨e1, e2⟩ := Prod.mk.injEq _ _ _ _ ▸ (Except.ok.injEq _ _).mp hrr
  subst e1
  subst e2
  have hmM : listMin radial ≤ listMax radial := listMin_le_listMax hne
  have hMe : listMax radial < listMax radial * EPS32 := by
    have he : listMax radial * EPS32 = listMax radial + listMax radial / 2 ^ 32 := by
      unfold EPS32
      ring
    have hpos : 0 < listMax radial / 2 ^ 32 := by positivity
    rw [he]
    linarith
  have hlt : listMin radial < listMax radial * EPS32 := lt_of_le_of_lt hmM hMe
  rw [outerEdges_of_lt hlt] at hoe
  obtain ⟨e3, e4⟩ := Prod.mk.injEq _ _ _ _ ▸ (Except.ok.injEq _ _).mp hoe
  subst e3
  subst e4
  subst hrm
  refine ⟨hres, ?_⟩
  rw [mk1d_sum_count, histogramW_getD _ _ (by omega : npt - 1 < npt)]
  obtain ⟨cp, hcpmem, hcp1, hcp2⟩ := hmax
  have hb : binOf (listMin radial) (listMax radial * EPS32) npt cp.1 =
      some (npt - 1) := by
    rw [hcp1]
    exact binOf_max_last hn hmM hM hgap
  have hmem2 : (cp.1, cp.2.count) ∈ radial.zip (prep.map (·.count)) := by
    rw [List.zip_map_right]
    exact List.mem_map.mpr ⟨cp, hcpmem, rfl⟩
  have hw : ∀ cw ∈ radial.zip (prep.map (·.count)), 0 ≤ cw.2 := by
    intro cw hcw
    rw [List.zip_map_right] at hcw
    obtain ⟨cp', hcp', rfl⟩ := List.mem_map.mp hcw
    exact hprep cp'.2 (List.of_mem_zip hcp').2
  have hle := le_binSum hw hmem2 hb
  rw [hcp2] at hle
  exact hle

/-- Witness for the amended claim C4: coordinates `[1/2, 1]`, two counted
pixels, no explicit range; the maximum-coordinate pixel lands in the last
bin. -/
theorem claim_C4_amended_witness :
    resolveRange1d [1/2, 1] none =
      .ok (listMin [1/2, 1], listMax [1/2, 1] * EPS32) ∧
    1 ≤ (mk1d (fun q => q) [1/2, 1] 2 [⟨3, 0, 1, 1⟩, ⟨7, 0, 1, 1⟩] none none .no
      (1/2) (1 * EPS32)).sum_count.getD (2 - 1) 0 :=
  claim_C4_amended
    (by
      intro p hp
      rcases List.mem_cons.mp hp with rfl | hp'
      · norm_num
      · rcases List.mem_cons.mp hp' with rfl | hp''
        · norm_num
        · exact absurd hp'' (List.not_mem_nil p))
    (by norm_num [listMax, List.foldl, max_def])
    (by norm_num [listMax, listMin, List.foldl, max_def, min_def])
    ⟨((1 : ℚ), (⟨7, 0, 1, 1⟩ : PixelSample)), by
      norm_num [List.zip, List.zipWith, listMax, List.foldl, max_def]⟩
    (histogram1d_engine_eq_ok rfl (by decide) (by decide)
      (show resolveRange1d [1/2, 1] none = .ok (1/2, 1 * EPS32) by
        norm_num [resolveRange1d, listMin, listMax, List.foldl, min_def, max_def])
      (show outerEdges (1/2) (1 * EPS32) = .ok (1/2, 1 * EPS32) by
        norm_num [outerEdges, EPS32]))

end PyFAI

namespace PyFAI

/-! Per-cell reduction values of the assembled 2D result. -/

theorem mk2d_intensity (sq : ℚ → ℚ) (radial azimuthal : List ℚ) (nr na : ℕ)
    (prep : List PixelSample) (dummy empty : Option ℚ) (em : ErrorModel)
    (lor hir loa hia : ℚ) :
    (mk2d sq radial azimuthal nr na prep dummy empty em lor hir loa hia).intensity =
      maskFill2 (histogram2W radial azimuthal (prep.map (·.count)) nr lor hir na loa hia)
        (emptyFill dummy empty)
        (zipWith2 fdivQ
          (histogram2W radial azimuthal (prep.map (·.signal)) nr lor hir na loa hia)
          (histogram2W radial azimuthal (prep.map (·.norm)) nr lor hir na loa hia)) := rfl

theorem histogram2W_length (radial azim ws : List ℚ) (nr : ℕ) (lor hir : ℚ)
    (na : ℕ) (loa hia : ℚ) :
    (histogram2W radial azim ws nr lor hir na loa hia).length = na := by
  simp [histogram2W]

theorem histogram2W_row (radial azim ws : List ℚ) (nr : ℕ) (lor hir : ℚ)
    (na : ℕ) (loa hia : ℚ) {j : ℕ} (hj : j < na) :
    (histogram2W radial azim ws nr lor hir na loa hia).getD j [] =
      (List.range nr).map
        (fun i => binSum2 lor hir nr loa hia na ((radial.zip azim).zip ws) i j) :=
  getD_map_range _ hj []

theorem histogram2W_row_length (radial azim ws : List ℚ) (nr : ℕ) (lor hir : ℚ)
    (na : ℕ) (loa hia : ℚ) {j : ℕ} (hj : j < na) :
    ((histogram2W radial azim ws nr lor hir na loa hia).getD j []).length = nr := by
  rw [histogram2W_row radial azim ws nr lor hir na loa hia hj]
  simp

theorem histogram2W_getD (radial azim ws : List ℚ) (nr : ℕ) (lor hir : ℚ)
    (na : ℕ) (loa hia : ℚ) {j i : ℕ} (hj : j < na) (hi : i < nr) :
    ((histogram2W radial azim ws nr lor hir na loa hia).getD j []).getD i 0 =
      binSum2 lor hir nr loa hia na ((radial.zip azim).zip ws) i j := by
  rw [histogram2W_row radial azim ws nr lor hir na loa hia hj, getD_map_range _ hi 0]

theorem maskFill2_getD {counts : List (List ℚ)} {vals : List (List Val)}
    (fill : Val) {j : ℕ} (hj1 : j < counts.length) (hj2 : j < vals.length) :
    (maskFill2 counts fill vals).getD j [] =
      maskFill (counts.getD j []) fill (vals.getD j []) := by
  unfold maskFill2
  rw [zipWith_getD _ hj1 hj2 [] [] []]

theorem zipWith2_getD {α β γ : Type} (f : α → β → γ) {a : List (List α)}
    {b : List (List β)} {j : ℕ} (hj1 : j < a.length) (hj2 : j < b.length) :
    (zipWith2 f a b).getD j [] = List.zipWith f (a.getD j []) (b.getD j []) := by
  unfold zipWith2
  rw [zipWith_getD _ hj1 hj2 [] [] []]

theorem mk2d_intensity_getD (sq : ℚ → ℚ) (radial azimuthal : List ℚ) (nr na : ℕ)
    (prep : List PixelSample) (dummy empty : Option ℚ) (em : ErrorModel)
    (lor hir loa hia : ℚ) {j i : ℕ} (hj : j < na) (hi : i < nr) :
    (((mk2d sq radial azimuthal nr na prep dummy empty em lor hir loa hia).intensity.getD
        j []).getD i none) =
      if ((histogram2W radial azimuthal (prep.map (·.count)) nr lor hir na loa hia).getD
          j []).getD i 0 = 0
      then emptyFill dummy empty
      else fdivQ
        (((histogram2W radial azimuthal (prep.map (·.signal)) nr lor hir na loa hia).getD
          j []).getD i 0)
        (((histogram2W radial azimuthal (prep.map (·.norm)) nr lor hir na loa hia).getD
          j []).getD i 0) := by
  have hjc : j < (histogram2W radial azimuthal (prep.map (·.count)) nr lor hir na loa hia).length := by
    rw [histogram2W_length]
    exact hj
  have hjs : j < (histogram2W radial azimuthal (prep.map (·.signal)) nr lor hir na loa hia).length := by
    rw [histogram2W_length]
    exact hj
  have hjn : j < (histogram2W radial azimuthal (prep.map (·.norm)) nr lor hir na loa hia).length := by
    rw [histogram2W_length]
    exact hj
  have hjv : j < (zipWith2 fdivQ
      (histogram2W radial azimuthal (prep.map (·.signal)) nr lor hir na loa hia)
      (histogram2W radial azimuthal (prep.map (·.norm)) nr lor hir na loa hia)).length := by
    simpa [zipWith2, List.length_zipWith, histogram2W_length] using hj
  have hic : i < ((histogram2W radial azimuthal (prep.map (·.count)) nr lor hir na loa hia).getD j []).length := by
    rw [histogram2W_row_length _ _ _ _ _ _ _ _ _ hj]
    exact hi
  have his : i < ((histogram2W radial azimuthal (prep.map (·.signal)) nr lor hir na loa hia).getD j []).length := by
    rw [histogram2W_row_length _ _ _ _ _ _ _ _ _ hj]
    exact hi
  have hin : i < ((histogram2W radial azimuthal (prep.map (·.norm)) nr lor hir na loa hia).getD j []).length := by
    rw [histogram2W_row_length _ _ _ _ _ _ _ _ _ hj]
    exact hi
  have hiv : i < (List.zipWith fdivQ
      ((histogram2W radial azimuthal (prep.map (·.signal)) nr lor hir na loa hia).getD j [])
      ((histogram2W radial azimuthal (prep.map (·.norm)) nr lor hir na loa hia).getD j [])).length := by
    rw [List.length_zipWith, histogram2W_row_length _ _ _ _ _ _ _ _ _ hj,
      histogram2W_row_length _ _ _ _ _ _ _ _ _ hj]
    simpa using hi
  rw [mk2d_intensity, maskFill2_getD (emptyFill dummy empty) hjc hjv,
    zipWith2_getD fdivQ hjs hjn, maskFill_getD (emptyFill dummy empty) hic hiv none,
    zipWith_getD fdivQ his hin 0 0 none]

theorem mk2d_error_getD (em : ErrorModel) (htr : em.truthy = true) (sq : ℚ → ℚ)
    (radial azimuthal : List ℚ) (nr na : ℕ) (prep : List PixelSample)
    (dummy empty : Option ℚ) (lor hir loa hia : ℚ) {j i : ℕ}
    (hj : j < na) (hi : i < nr) :
    ∃ errm, (mk2d sq radial azimuthal nr na prep dummy empty em lor hir loa hia).error =
        some errm ∧
      (errm.getD j []).getD i none =
        (if ((histogram2W radial azimuthal (prep.map (·.count)) nr lor hir na loa hia).getD
            j []).getD i 0 = 0
         then emptyFill dummy empty
         else vdivQ
           (fsqrtQ sq
             (((histogram2W radial azimuthal (prep.map (·.variance)) nr lor hir na loa hia).getD
               j []).getD i 0))
           (((histogram2W radial azimuthal (prep.map (·.norm)) nr lor hir na loa hia).getD
             j []).getD i 0)) := by
  have hjc : j < (histogram2W radial azimuthal (prep.map (·.count)) nr lor hir na loa hia).length := by
    rw [histogram2W_length]
    exact hj
  have hjv : j < (histogram2W radial azimuthal (prep.map (·.variance)) nr lor hir na loa hia).length := by
    rw [histogram2W_length]
    exact hj
  have hjn : j < (histogram2W radial azimuthal (prep.map (·.norm)) nr lor hir na loa hia).length := by
    rw [histogram2W_length]
    exact hj
  have hjz : j < (zipWith2 (fun v n => vdivQ (fsqrtQ sq v) n)
      (histogram2W radial azimuthal (prep.map (·.variance)) nr lor hir na loa hia)
      (histogram2W radial azimuthal (prep.map (·.norm)) nr lor hir na loa hia)).length := by
    simpa [zipWith2, List.length_zipWith, histogram2W_length] using hj
  have hic : i < ((histogram2W radial azimuthal (prep.map (·.count)) nr lor hir na loa hia).getD j []).length := by
    rw [histogram2W_row_length _ _ _ _ _ _ _ _ _ hj]
    exact hi
  have hiv : i < ((histogram2W radial azimuthal (prep.map (·.variance)) nr lor hir na loa hia).getD j []).length := by
    rw [histogram2W_row_length _ _ _ _ _ _ _ _ _ hj]
    exact hi
  have hin : i < ((histogram2W radial azimuthal (prep.map (·.norm)) nr lor hir na loa hia).getD j []).length := by
    rw [histogram2W_row_length _ _ _ _ _ _ _ _ _ hj]
    exact hi
  have hiz : i < (List.zipWith (fun v n => vdivQ (fsqrtQ sq v) n)
      ((histogram2W radial azimuthal (prep.map (·.variance)) nr lor hir na loa hia).getD j [])
      ((histogram2W radial azimuthal (prep.map (·.norm)) nr lor hir na loa hia).getD j [])).length := by
    rw [List.length_zipWith, histogram2W_row_length _ _ _ _ _ _ _ _ _ hj,
      histogram2W_row_length _ _ _ _ _ _ _ _ _ hj]
    simpa using hi
  refine ⟨_, mk2d_error_truthy em htr sq radial azimuthal nr na prep dummy empty
    lor hir loa hia, ?_⟩
  rw [maskFill2_getD (emptyFill dummy empty) hjc hjz,
    zipWith2_getD (fun v n => vdivQ (fsqrtQ sq v) n) hjv hjn,
    maskFill_getD (emptyFill dummy empty) hic hiz none,
    zipWith_getD (fun v n => vdivQ (fsqrtQ sq v) n) hiv hin 0 0 none]

/-- Claim C1 as amended, covering both entry points: in every accepted 1D
result and every accepted 2D result, a bin/cell with nonzero `sum_count`
holds `sum_signal / sum_normalization`, and a bin/cell with zero `sum_count`
holds the empty-fill value in `intensity` and — when an error model is
active — in `std`/`sem` (1D) and in the error matrix (2D); the fill value is
the supplied `dummy` if one was given, overriding any explicit `empty`,
otherwise the supplied `empty`, and with neither supplied it is NaN (not 0 as
claimed).  Degenerate divisions are modelled total (`fdivQ`), so they never
raise, and their results never reach the caller on empty bins/cells. -/
theorem claim_C1_amended (sq : ℚ → ℚ) (radial : List ℚ) (npt : ℕ)
    (prep : List PixelSample) (dummy empty : Option ℚ) (em : ErrorModel)
    (rr : Option (ℚ × ℚ)) (r : Integrate1dtpl)
    (radial2 azimuthal2 : List ℚ) (npt2 : ℕ × ℕ) (prep2 : List PixelSample)
    (dummy2 empty2 : Option ℚ) (em2 : ErrorModel) (rr2 ar2 : Option (ℚ × ℚ))
    (r2 : Integrate2dtpl) :
    (∀ d, dummy = some d → emptyFill dummy empty = some d) ∧
    (dummy = none → emptyFill dummy empty = empty) ∧
    (histogram1d_engine sq radial npt prep dummy empty em rr = .ok r →
      ∀ k, k < npt →
        (r.sum_count.getD k 0 ≠ 0 →
          r.intensity.getD k none =
            fdivQ (r.sum_signal.getD k 0) (r.sum_normalization.getD k 0)) ∧
        (r.sum_count.getD k 0 = 0 →
          r.intensity.getD k none = emptyFill dummy empty ∧
          (∀ lstd, r.std = some lstd → lstd.getD k none = emptyFill dummy empty) ∧
          (∀ lsem, r.sem = some lsem → lsem.getD k none = emptyFill dummy empty))) ∧
    (histogram2d_engine sq radial2 azimuthal2 npt2 prep2 dummy2 empty2 em2 rr2 ar2 =
        .ok r2 →
      ∀ j i, j < max 1 npt2.2 → i < max 1 npt2.1 →
        ((r2.sum_count.getD j []).getD i 0 ≠ 0 →
          (r2.intensity.getD j []).getD i none =
            fdivQ ((r2.sum_signal.getD j []).getD i 0)
              ((r2.sum_normalization.getD j []).getD i 0)) ∧
        ((r2.sum_count.getD j []).getD i 0 = 0 →
          (r2.intensity.getD j []).getD i none = emptyFill dummy2 empty2 ∧
          (∀ errm, r2.error = some errm →
            (errm.getD j []).getD i none = emptyFill dummy2 empty2))) := by
  refine ⟨?_, ?_, ?_, ?_⟩
  · rintro d rfl
    rfl
  · rintro rfl
    rfl
  · intro h
    obtain ⟨-, -, -, rlo, rhi, lo, hi, -, -, hrm⟩ := histogram1d_engine_ok_elim h
    subst hrm
    intro k hk
    have hcnt : (mk1d sq radial npt prep dummy empty em lo hi).sum_count =
        histogramW radial (prep.map (·.count)) npt lo hi :=
      mk1d_sum_count sq radial npt prep dummy empty em lo hi
    constructor
    · intro hne
      rw [hcnt] at hne
      rw [mk1d_intensity_getD sq radial npt prep dummy empty em lo hi hk,
        if_neg hne, mk1d_sum_signal, mk1d_sum_normalization]
    · intro hzero
      rw [hcnt] at hzero
      refine ⟨?_, ?_, ?_⟩
      · rw [mk1d_intensity_getD sq radial npt prep dummy empty em lo hi hk,
          if_pos hzero]
      · intro lstd hstd
        cases htr : em.truthy with
        | false =>
          have := (mk1d_no_error_model em htr sq radial npt prep dummy empty lo hi).1
          rw [this] at hstd
          exact Option.noConfusion hstd
        | true =>
          obtain ⟨lstd', hstd', hval⟩ :=
            mk1d_std_getD em htr sq radial npt prep dummy empty lo hi hk
          rw [hstd] at hstd'
          obtain rfl := (Option.some.injEq _ _).mp hstd'.symm
          rw [hval, if_pos hzero]
      · intro lsem hsem
        cases htr : em.truthy with
        | false =>
          have := (mk1d_no_error_model em htr sq radial npt prep dummy empty lo hi).2.1
          rw [this] at hsem
          exact Option.noConfusion hsem
        | true =>
          obtain ⟨lsem', hsem', hval⟩ :=
            mk1d_sem_getD em htr sq radial npt prep dummy empty lo hi hk
          rw [hsem] at hsem'
          obtain rfl := (Option.some.injEq _ _).mp hsem'.symm
          rw [hval, if_pos hzero]
  · intro h2
    obtain ⟨-, -, lor, hir, loa, hia, -, -, hrm2⟩ := histogram2d_engine_ok_elim h2
    subst hrm2
    intro j i hj hi
    have hcnt2 : (mk2d sq radial2 azimuthal2 (max 1 npt2.1) (max 1 npt2.2) prep2
        dummy2 empty2 em2 lor hir loa hia).sum_count =
        histogram2W radial2 azimuthal2 (prep2.map (·.count)) (max 1 npt2.1)
          lor hir (max 1 npt2.2) loa hia :=
      mk2d_sum_count sq radial2 azimuthal2 (max 1 npt2.1) (max 1 npt2.2) prep2
        dummy2 empty2 em2 lor hir loa hia
    constructor
    · intro hne
      rw [hcnt2] at hne
      rw [mk2d_intensity_getD sq radial2 azimuthal2 (max 1 npt2.1) (max 1 npt2.2)
          prep2 dummy2 empty2 em2 lor hir loa hia hj hi,
        if_neg hne, mk2d_sum_signal, mk2d_sum_normalization]
    · intro hzero
      rw [hcnt2] at hzero
      refine ⟨?_, ?_⟩
      · rw [mk2d_intensity_getD sq radial2 azimuthal2 (max 1 npt2.1) (max 1 npt2.2)
            prep2 dummy2 empty2 em2 lor hir loa hia hj hi,
          if_pos hzero]
      · intro errm herr
        cases htr : em2.truthy with
        | false =>
          have := (mk2d_error_falsy em2 htr sq radial2 azimuthal2 (max 1 npt2.1)
            (max 1 npt2.2) prep2 dummy2 empty2 lor hir loa hia).1
          rw [this] at herr
          exact Option.noConfusion herr
        | true =>
          obtain ⟨errm', herr', hval⟩ :=
            mk2d_error_getD em2 htr sq radial2 azimuthal2 (max 1 npt2.1)
              (max 1 npt2.2) prep2 dummy2 empty2 lor hir loa hia hj hi
          rw [herr] at herr'
          obtain rfl := (Option.some.injEq _ _).mp herr'.symm
          rw [hval, if_pos hzero]

end PyFAI

namespace PyFAI

/-- Witness for the amended claim C1 at concrete inputs for both entry points:
in the 1D call a supplied dummy value of 5 overrides the explicit `empty`
argument 7 on the empty second bin; in the 2D call with the Poisson model the
off-diagonal empty cells receive the explicit `empty` value 0 in both the
intensity and the error matrix. -/
theorem claim_C1_amended_witness :
    (∀ d, (some (5:ℚ) : Option ℚ) = some d →
      emptyFill (some 5) (some 7) = some d) ∧
    ((some (5:ℚ) : Option ℚ) = none → emptyFill (some 5) (some 7) = some 7) ∧
    (∀ k, k < 2 →
      ((mk1d (fun q => q) [1/4] 2 [⟨10, 0, 1, 1⟩] (some 5) (some 7) .no 0 1).sum_count.getD
          k 0 ≠ 0 →
        (mk1d (fun q => q) [1/4] 2 [⟨10, 0, 1, 1⟩] (some 5) (some 7) .no 0 1).intensity.getD
            k none =
          fdivQ ((mk1d (fun q => q) [1/4] 2 [⟨10, 0, 1, 1⟩] (some 5) (some 7) .no 0 1).sum_signal.getD
            k 0)
            ((mk1d (fun q => q) [1/4] 2 [⟨10, 0, 1, 1⟩] (some 5) (some 7) .no 0 1).sum_normalization.getD
              k 0)) ∧
      ((mk1d (fun q => q) [1/4] 2 [⟨10, 0, 1, 1⟩] (some 5) (some 7) .no 0 1).sum_count.getD
          k 0 = 0 →
        (mk1d (fun q => q) [1/4] 2 [⟨10, 0, 1, 1⟩] (some 5) (some 7) .no 0 1).intensity.getD
            k none = emptyFill (some 5) (some 7) ∧
        (∀ lstd, (mk1d (fun q => q) [1/4] 2 [⟨10, 0, 1, 1⟩] (some 5) (some 7) .no 0 1).std =
            some lstd → lstd.getD k none = emptyFill (some 5) (some 7)) ∧
        (∀ lsem, (mk1d (fun q => q) [1/4] 2 [⟨10, 0, 1, 1⟩] (some 5) (some 7) .no 0 1).sem =
            some lsem → lsem.getD k none = emptyFill (some 5) (some 7)))) ∧
    (∀ j i, j < max 1 ((2, 2) : ℕ × ℕ).2 → i < max 1 ((2, 2) : ℕ × ℕ).1 →
      (((mk2d (fun q => q) [1/10, 9/10] [1/10, 9/10] (max 1 ((2, 2) : ℕ × ℕ).1)
            (max 1 ((2, 2) : ℕ × ℕ).2) [⟨10, 4, 1, 1⟩, ⟨20, 9, 1, 1⟩] none (some 0)
            .poisson 0 1 0 1).sum_count.getD j []).getD i 0 ≠ 0 →
        ((mk2d (fun q => q) [1/10, 9/10] [1/10, 9/10] (max 1 ((2, 2) : ℕ × ℕ).1)
            (max 1 ((2, 2) : ℕ × ℕ).2) [⟨10, 4, 1, 1⟩, ⟨20, 9, 1, 1⟩] none (some 0)
            .poisson 0 1 0 1).intensity.getD j []).getD i none =
          fdivQ (((mk2d (fun q => q) [1/10, 9/10] [1/10, 9/10] (max 1 ((2, 2) : ℕ × ℕ).1)
              (max 1 ((2, 2) : ℕ × ℕ).2) [⟨10, 4, 1, 1⟩, ⟨20, 9, 1, 1⟩] none (some 0)
              .poisson 0 1 0 1).sum_signal.getD j []).getD i 0)
            (((mk2d (fun q => q) [1/10, 9/10] [1/10, 9/10] (max 1 ((2, 2) : ℕ × ℕ).1)
              (max 1 ((2, 2) : ℕ × ℕ).2) [⟨10, 4, 1, 1⟩, ⟨20, 9, 1, 1⟩] none (some 0)
              .poisson 0 1 0 1).sum_normalization.getD j []).getD i 0)) ∧
      (((mk2d (fun q => q) [1/10, 9/10] [1/10, 9/10] (max 1 ((2, 2) : ℕ × ℕ).1)
            (max 1 ((2, 2) : ℕ × ℕ).2) [⟨10, 4, 1, 1⟩, ⟨20, 9, 1, 1⟩] none (some 0)
            .poisson 0 1 0 1).sum_count.getD j []).getD i 0 = 0 →
        ((mk2d (fun q => q) [1/10, 9/10] [1/10, 9/10] (max 1 ((2, 2) : ℕ × ℕ).1)
            (max 1 ((2, 2) : ℕ × ℕ).2) [⟨10, 4, 1, 1⟩, ⟨20, 9, 1, 1⟩] none (some 0)
            .poisson 0 1 0 1).intensity.getD j []).getD i none =
          emptyFill none (some 0) ∧
        (∀ errm, (mk2d (fun q => q) [1/10, 9/10] [1/10, 9/10] (max 1 ((2, 2) : ℕ × ℕ).1)
            (max 1 ((2, 2) : ℕ × ℕ).2) [⟨10, 4, 1, 1⟩, ⟨20, 9, 1, 1⟩] none (some 0)
            .poisson 0 1 0 1).error = some errm →
          (errm.getD j []).getD i none = emptyFill none (some 0)))) :=
  ⟨(claim_C1_amended (fun q => q) [1/4] 2 [⟨10, 0, 1, 1⟩] (some 5) (some 7) .no
      (some (0, 1)) (mk1d (fun q => q) [1/4] 2 [⟨10, 0, 1, 1⟩] (some 5) (some 7) .no 0 1)
      [1/10, 9/10] [1/10, 9/10] (2, 2) [⟨10, 4, 1, 1⟩, ⟨20, 9, 1, 1⟩] none (some 0)
      .poisson (some (0, 1)) (some (0, 1))
      (mk2d (fun q => q) [1/10, 9/10] [1/10, 9/10] (max 1 ((2, 2) : ℕ × ℕ).1)
        (max 1 ((2, 2) : ℕ × ℕ).2) [⟨10, 4, 1, 1⟩, ⟨20, 9, 1, 1⟩] none (some 0)
        .poisson 0 1 0 1)).1,
   (claim_C1_amended (fun q => q) [1/4] 2 [⟨10, 0, 1, 1⟩] (some 5) (some 7) .no
      (some (0, 1)) (mk1d (fun q => q) [1/4] 2 [⟨10, 0, 1, 1⟩] (some 5) (some 7) .no 0 1)
      [1/10, 9/10] [1/10, 9/10] (2, 2) [⟨10, 4, 1, 1⟩, ⟨20, 9, 1, 1⟩] none (some 0)
      .poisson (some (0, 1)) (some (0, 1))
      (mk2d (fun q => q) [1/10, 9/10] [1/10, 9/10] (max 1 ((2, 2) : ℕ × ℕ).1)
        (max 1 ((2, 2) : ℕ × ℕ).2) [⟨10, 4, 1, 1⟩, ⟨20, 9, 1, 1⟩] none (some 0)
        .poisson 0 1 0 1)).2.1,
   (claim_C1_amended (fun q => q) [1/4] 2 [⟨10, 0, 1, 1⟩] (some 5) (some 7) .no
      (some (0, 1)) (mk1d (fun q => q) [1/4] 2 [⟨10, 0, 1, 1⟩] (some 5) (some 7) .no 0 1)
      [1/10, 9/10] [1/10, 9/10] (2, 2) [⟨10, 4, 1, 1⟩, ⟨20, 9, 1, 1⟩] none (some 0)
      .poisson (some (0, 1)) (some (0, 1))
      (mk2d (fun q => q) [1/10, 9/10] [1/10, 9/10] (max 1 ((2, 2) : ℕ × ℕ).1)
        (max 1 ((2, 2) : ℕ × ℕ).2) [⟨10, 4, 1, 1⟩, ⟨20, 9, 1, 1⟩] none (some 0)
        .poisson 0 1 0 1)).2.2.1
     (histogram1d_engine_eq_ok rfl (by decide) (by decide)
       (rfl : resolveRange1d [1/4] (some (0, 1)) = .ok (0, 1))
       (show outerEdges 0 1 = .ok (0, 1) by norm_num [outerEdges])),
   (claim_C1_amended (fun q => q) [1/4] 2 [⟨10, 0, 1, 1⟩] (some 5) (some 7) .no
      (some (0, 1)) (mk1d (fun q => q) [1/4] 2 [⟨10, 0, 1, 1⟩] (some 5) (some 7) .no 0 1)
      [1/10, 9/10] [1/10, 9/10] (2, 2) [⟨10, 4, 1, 1⟩, ⟨20, 9, 1, 1⟩] none (some 0)
      .poisson (some (0, 1)) (some (0, 1))
      (mk2d (fun q => q) [1/10, 9/10] [1/10, 9/10] (max 1 ((2, 2) : ℕ × ℕ).1)
        (max 1 ((2, 2) : ℕ × ℕ).2) [⟨10, 4, 1, 1⟩, ⟨20, 9, 1, 1⟩] none (some 0)
        .poisson 0 1 0 1)).2.2.2
     (histogram2d_engine_eq_ok rfl rfl
       (show resolveAxis [1/10, 9/10] (some (0, 1)) = .ok (0, 1) by
         norm_num [resolveAxis, outerEdges])
       (show resolveAxis [1/10, 9/10] (some (0, 1)) = .ok (0, 1) by
         norm_num [resolveAxis, outerEdges]))⟩

end PyFAI
